import Mathlib

/-!
Verification of the clinical-documentation pipeline of the Aarogya AI backend.

The Python sources are shallowly embedded: Python `str` is `String` (or
`List Char` for lemma work), Python dicts are association lists, fallible
Python code returns `Except PyErr`, and the external Gemini call is an
explicit outcome parameter.  Each embedded definition mirrors one function
of the repository; the theorems at the end settle the frozen claims.
-/

namespace Aarogya

/-- A raised Python exception, by class and message (`str(e)`). -/
inductive PyErr where
  | valueError (msg : String)
  | runtimeError (msg : String)
  | attributeError (msg : String)
  | typeError (msg : String)
deriving DecidableEq, Repr

/-- The exception class name of an error result, if the computation raised. -/
def pyErrKind : PyErr → String
  | .valueError _ => "ValueError"
  | .runtimeError _ => "RuntimeError"
  | .attributeError _ => "AttributeError"
  | .typeError _ => "TypeError"

/-- `str(e)`: the message of a Python exception. -/
def pyErrStr : PyErr → String
  | .valueError m => m
  | .runtimeError m => m
  | .attributeError m => m
  | .typeError m => m

/-- The exception class of the raised error, `none` when nothing was raised. -/
def raisedKind {α : Type} : Except PyErr α → Option String
  | .error e => some (pyErrKind e)
  | .ok _ => none

/-- The ASCII whitespace characters removed by Python `str.strip()`. -/
def isPyWs (c : Char) : Bool :=
  c = ' ' || c = '\t' || c = '\n' || c = '\r' || c = '\x0b' || c = '\x0c'

/-- Leading-whitespace removal, on character lists. -/
def stripLeft (l : List Char) : List Char := l.dropWhile isPyWs

/-- Trailing-whitespace removal, on character lists. -/
def stripRight (l : List Char) : List Char :=
  (l.reverse.dropWhile isPyWs).reverse

/-- Python `str.strip()` on character lists. -/
def pyStripL (l : List Char) : List Char := stripRight (stripLeft l)

/-- Python `str.strip()`. -/
def pyStrip (s : String) : String := (pyStripL s.toList).asString

/-- A Python runtime value as it occurs in the schemaless Mongo documents
fed to the formatters: `None`, booleans, integers, strings, `datetime`
instances, lists and dicts. -/
inductive PyVal where
  | none
  | bool (b : Bool)
  | int (n : Int)
  | str (s : String)
  | dt (year month day hour minute second : Nat)
  | list (xs : List PyVal)
  | dict (kvs : List (String × PyVal))

/-- Python type name, as it appears in `TypeError`/`AttributeError` messages. -/
def pyTypeName : PyVal → String
  | .none => "NoneType"
  | .bool _ => "bool"
  | .int _ => "int"
  | .str _ => "str"
  | .dt _ _ _ _ _ _ => "datetime"
  | .list _ => "list"
  | .dict _ => "dict"

/-- Python truthiness. -/
def pyTruthy : PyVal → Bool
  | .none => false
  | .bool b => b
  | .int n => n ≠ 0
  | .str s => s ≠ ""
  | .dt _ _ _ _ _ _ => true
  | .list xs => ¬ xs.isEmpty
  | .dict kvs => ¬ kvs.isEmpty

/-- Zero-padded two-digit rendering used by `strftime`. -/
def pad2 (n : Nat) : String := if n < 10 then "0" ++ toString n else toString n

/-- Zero-padded four-digit year rendering used by `strftime`. -/
def pad4 (n : Nat) : String :=
  if n < 10 then "000" ++ toString n
  else if n < 100 then "00" ++ toString n
  else if n < 1000 then "0" ++ toString n
  else toString n

mutual
/-- Python `repr(v)`, as used when a value is nested inside a rendered
container. Strings are quoted; escaping inside them is not modelled. -/
def pyRepr : PyVal → String
  | .none => "None"
  | .bool b => if b then "True" else "False"
  | .int n => toString n
  | .str s => "'" ++ s ++ "'"
  | .dt y mo d h mi s =>
      "datetime.datetime(" ++ toString y ++ ", " ++ toString mo ++ ", " ++
        toString d ++ ", " ++ toString h ++ ", " ++ toString mi ++ ", " ++
        toString s ++ ")"
  | .list xs => "[" ++ pyReprList xs ++ "]"
  | .dict kvs => "\x7b" ++ pyReprFields kvs ++ "\x7d"

/-- Comma-separated `repr` of list elements. -/
def pyReprList : List PyVal → String
  | [] => ""
  | [x] => pyRepr x
  | x :: y :: rest => pyRepr x ++ ", " ++ pyReprList (y :: rest)

/-- Comma-separated `repr` of dict entries. -/
def pyReprFields : List (String × PyVal) → String
  | [] => ""
  | [kv] => "'" ++ kv.1 ++ "': " ++ pyRepr kv.2
  | kv :: kv2 :: rest => "'" ++ kv.1 ++ "': " ++ pyRepr kv.2 ++ ", " ++ pyReprFields (kv2 :: rest)
end

/-- Python `str(v)`, as used by f-string interpolation. -/
def pyToStr : PyVal → String
  | .str s => s
  | .dt y mo d h mi s =>
      pad4 y ++ "-" ++ pad2 mo ++ "-" ++ pad2 d ++ " " ++ pad2 h ++ ":" ++
        pad2 mi ++ ":" ++ pad2 s
  | v => pyRepr v

/-- Dict lookup with default (`dict.get(k, d)` on a value already known to be
a dict). Python dicts keep one binding per key, the last one written, so the
lookup reads the last matching entry. -/
def dictGetD (kvs : List (String × PyVal)) (k : String) (d : PyVal) : PyVal :=
  match kvs.reverse.find? (fun kv => kv.1 == k) with
  | some kv => kv.2
  | Option.none => d

/-- `v.get(k, d)`: attribute lookup on an arbitrary value; non-dicts raise
`AttributeError` just as in Python. -/
def pyGet (v : PyVal) (k : String) (d : PyVal) : Except PyErr PyVal :=
  match v with
  | .dict kvs => .ok (dictGetD kvs k d)
  | _ =>
      .error (.attributeError
        ("'" ++ pyTypeName v ++ "' object has no attribute 'get'"))

/-- Python iteration (`for x in v`): lists yield items, strings yield their
characters, dicts yield their keys; other values raise `TypeError`. -/
def pyIter (v : PyVal) : Except PyErr (List PyVal) :=
  match v with
  | .list xs => .ok xs
  | .str s => .ok (s.toList.map (fun c => .str (String.mk [c])))
  | .dict kvs => .ok (kvs.map (fun kv => .str kv.1))
  | _ =>
      .error (.typeError ("'" ++ pyTypeName v ++ "' object is not iterable"))

/-- Worker for `pyJoinStrs`, tracking the item index for the error message. -/
def pyJoinStrsFrom (sep : String) (idx : Nat) : List PyVal → Except PyErr String
  | [] => .ok ""
  | [.str s] => .ok s
  | .str s :: v :: rest =>
      match pyJoinStrsFrom sep (idx + 1) (v :: rest) with
      | .ok tail => .ok (s ++ sep ++ tail)
      | .error e => .error e
  | v :: _ =>
      .error (.typeError
        ("sequence item " ++ toString idx ++ ": expected str instance, " ++
          pyTypeName v ++ " found"))

/-- `sep.join(items)`: every item must already be a `str`, otherwise Python
raises `TypeError`. -/
def pyJoinStrs (sep : String) (items : List PyVal) : Except PyErr String :=
  pyJoinStrsFrom sep 0 items

/-! ### Report Content Store (`doctor_routes.py`: `save_report_text`,
`get_report_content`)

`report_contents` documents are modelled as an association list from a
numeric document id (standing for the Mongo `ObjectId`) to the `content`
text; `nextId` is the next fresh id `insert_one` would mint. -/

/-- The `report_contents` collection plus the id generator. -/
structure ContentStore where
  docs : List (Nat × String)
  nextId : Nat
deriving DecidableEq, Repr

/-- `db.report_contents.find_one(\x7b"_id": i\x7d)`, projected to `content`. -/
def findContent (docs : List (Nat × String)) (i : Nat) : Option String :=
  match docs.find? (fun kv => kv.1 == i) with
  | some kv => some kv.2
  | Option.none => Option.none

/-- `db.report_contents.update_one(\x7b"_id": i\x7d, \x7b"$set": \x7b"content": c\x7d\x7d)`:
replaces the body of the matching document; matches nothing when `i` is not
present (no upsert). -/
def updateContent (docs : List (Nat × String)) (i : Nat) (c : String) :
    List (Nat × String) :=
  docs.map (fun kv => if kv.1 == i then (kv.1, c) else kv)

/-- `db.report_contents.insert_one(\x7b"content": c\x7d)`: mints a fresh id. -/
def insertContent (s : ContentStore) (c : String) : ContentStore × Nat :=
  (⟨s.docs ++ [(s.nextId, c)], s.nextId + 1⟩, s.nextId)

/-- The content-saving core of `save_report_text` (doctor_routes.py lines
277-313): when a valid `content_id` accompanies the request the matching
document's body is `$set`; otherwise a new document is inserted.  Returns
the store and the `content_db_id` reported to the client. -/
def saveReportBody (s : ContentStore) (content : String)
    (contentIdFromRequest : Option Nat) : ContentStore × Nat :=
  match contentIdFromRequest with
  | some i => (⟨updateContent s.docs i content, s.nextId⟩, i)
  | Option.none => insertContent s content

/-- The request body of `/save-report-text/...`: the pydantic model
`ReportPDFRequest` (patient_models.py lines 19-22) declares only
`report_content_text`. -/
structure ReportPDFRequest where
  report_content_text : String
deriving DecidableEq, Repr

/-- `getattr(report_data, 'content_id', None)` (doctor_routes.py line 267):
`ReportPDFRequest` has no `content_id` field and pydantic ignores unknown
body fields, so the attribute lookup always yields `None`. -/
def contentIdFromRequest (_r : ReportPDFRequest) : Option Nat := Option.none

/-- The `/save-report-text/{patient_id}` endpoint, restricted to its effect
on the Report Content Store: the text is stored with the `content_id`
recovered from the request by `contentIdFromRequest`. -/
def save_report_text (s : ContentStore) (r : ReportPDFRequest) :
    ContentStore × Nat :=
  saveReportBody s r.report_content_text (contentIdFromRequest r)

/-- The `/reports/{report_content_id}` endpoint (doctor_routes.py lines
152-167), restricted to the stored body: `find_one` on `report_contents`,
`none` standing for the 404 `NotFound` response. -/
def get_report_content (s : ContentStore) (i : Nat) : Option String :=
  findContent s.docs i

/-! ### Record Merge Engine (spec §4.5)

Modelled from the spec: the Record Merge Engine — the code that merges an
`ExtractedEntitySet` into a patient's `MedicalRecord` — is not present under
`src/` (only the extractor that produces its input is).  Per the spec, every
category is combined by `current_list + extracted_list`, except allergies,
which are combined as a case-sensitive set union of strings. -/

/-- Modelled from the spec: the transient `ExtractedEntitySet` (§3), with
the five fixed categories. Entries other than allergies are opaque here. -/
structure ExtractedEntitySet (α : Type) where
  medications : List α
  diagnoses : List α
  allergies : List String
  consultations : List α
  immunizations : List α

/-- Modelled from the spec: the category lists of a `MedicalRecord` that the
Record Merge Engine writes (§3, §4.5). -/
structure MergeRecord (α : Type) where
  patient_id : String
  current_medications : List α
  diagnoses : List α
  allergies : List String
  consultation_history : List α
  immunizations : List α

/-- Set-insert used by the allergy union: keep the current list and append
each extracted string not already present (case-sensitive). -/
def unionAllergies (cur ext : List String) : List String :=
  ext.foldl (fun acc a => if acc.contains a then acc else acc ++ [a]) cur

/-- Modelled from the spec: `merge_into_record(record, entities)` (§4.5,
§6) — append for every category, set union for allergies. -/
def merge_into_record {α : Type} (rec : MergeRecord α)
    (es : ExtractedEntitySet α) : MergeRecord α :=
  { rec with
    current_medications := rec.current_medications ++ es.medications
    diagnoses := rec.diagnoses ++ es.diagnoses
    allergies := unionAllergies rec.allergies es.allergies
    consultation_history := rec.consultation_history ++ es.consultations
    immunizations := rec.immunizations ++ es.immunizations }

/-! ### Gemini initialization (`chatbot_service.py` lines 18-21,
`appointment_route.py` lines 39-48) -/

/-- `os.getenv` result: `none` when the variable is unset.  `not API_KEY`
is true for an unset or empty variable. -/
def pyFalsyEnv : Option String → Bool
  | Option.none => true
  | some s => s == ""

/-- The module-level credential check of `chatbot_service.py` (lines 18-21):
importing the module with no usable `GEMINI_API_KEY` raises `ValueError`
and the import — hence the process performing it — fails. -/
def chatbot_service_module_init (apiKey : Option String) :
    Except PyErr Unit :=
  if pyFalsyEnv apiKey then
    .error (.valueError
      "GEMINI_API_KEY not found. Please set it in your .env file or environment.")
  else .ok ()

/-- The module-level Gemini initialization of `appointment_route.py` (lines
39-48): the `try` block raises `ValueError` on a missing credential, the
`except` swallows it and leaves `gemini_model = None`. -/
def appointment_gemini_init (apiKey : Option String) : Option Unit :=
  if pyFalsyEnv apiKey then Option.none else some ()

/-! ### Severity classifier (`appointment_route.py` lines 89-125) -/

/-- `x or 'None'` on a join result: empty string falls back. -/
def orNone (s : String) : String := if s = "" then "None" else s

/-- `v or default` for the optional form fields `reason`/`patient_notes`:
`None` and the empty string both fall back. -/
def strOrDefault (v : Option String) (d : String) : String :=
  match v with
  | some s => if s = "" then d else s
  | Option.none => d

/-- `d.get('name', '') if isinstance(d, dict) else str(d)`: the per-item
expression of the Diagnoses/Medications/Immunizations join. -/
def nameOrStr (d : PyVal) : PyVal :=
  match d with
  | .dict kvs => dictGetD kvs "name" (.str "")
  | _ => .str (pyToStr d)

/-- Python slicing `v[:100]`: strings and lists are sliced, anything else is
not subscriptable. -/
def pySlice100 : PyVal → Except PyErr PyVal
  | .str s => .ok (.str (s.take 100))
  | .list xs => .ok (.list (xs.take 100))
  | v =>
      .error (.typeError ("'" ++ pyTypeName v ++ "' object is not subscriptable"))

/-- The `medical_info_str` f-string of `predict_symptom_severity`
(appointment_route.py lines 96-106), with its interpolated expressions
evaluated in source order; any of the joins or attribute accesses can raise
for a malformed record, exactly as in Python (the f-string sits outside the
`try`). -/
def medical_info_str (medical_record : List (String × PyVal))
    (reason patient_notes : Option String) : Except PyErr String := do
  let diagItems ← pyIter (dictGetD medical_record "diagnoses" (.list []))
  let diag ← pyJoinStrs ", " (diagItems.map nameOrStr)
  let medItems ← pyIter (dictGetD medical_record "current_medications" (.list []))
  let meds ← pyJoinStrs ", " (medItems.map nameOrStr)
  let allergyItems ← pyIter (dictGetD medical_record "allergies" (.list []))
  let allergies ← pyJoinStrs ", " allergyItems
  let immItems ← pyIter (dictGetD medical_record "immunizations" (.list []))
  let imms ← pyJoinStrs ", " (immItems.map nameOrStr)
  let family := pyToStr (dictGetD medical_record "family_medical_history" (.str "None"))
  let reportItems ← pyIter (dictGetD medical_record "reports" (.list []))
  let descs ← reportItems.mapM (fun r => do
      let d ← pyGet r "description" (.str "")
      pySlice100 d)
  let reports ← pyJoinStrs ", " descs
  .ok ("\nMedical Record:\nDiagnoses: " ++ orNone diag ++
    "\nCurrent Medications: " ++ orNone meds ++
    "\nAllergies: " ++ orNone allergies ++
    "\nImmunizations: " ++ orNone imms ++
    "\nFamily Medical History: " ++ family ++
    "\nRecent Reports: " ++ orNone reports ++
    "\nReason for Visit: " ++ strOrDefault reason "Not provided" ++
    "\nSymptoms Description: " ++ strOrDefault patient_notes "Not provided" ++ "\n")

/-- What `await gemini_model.generate_content_async(prompt)` together with
the `response.text` access comes to: either a text, or some exception
(network fault, blocked response, ...). -/
inductive GeminiOutcome where
  | resp (text : String)
  | exn (name : String)

/-- `predict_symptom_severity` (appointment_route.py lines 89-125).  The
module-global `gemini_model` and the Gemini outcome are explicit inputs;
the returned `Except` records whether the call raised to its caller. -/
def predict_symptom_severity (gemini_model : Option Unit)
    (medical_record : List (String × PyVal))
    (reason patient_notes : Option String) (outcome : GeminiOutcome) :
    Except PyErr String :=
  match gemini_model with
  | Option.none => .ok "Unknown"
  | some _ =>
    match medical_info_str medical_record reason patient_notes with
    | .error e => .error e
    | .ok _info =>
      match outcome with
      | .exn _ => .ok "Unknown"
      | .resp t =>
        let severity := pyStrip t
        let valid_severities : List String := ["Very Serious", "Moderate", "Normal"]
        if valid_severities.contains severity then .ok severity else .ok "Unknown"

/-! ### `json.loads` (used by `parser_service.py` line 157)

A JSON value and a recursive-descent parser for the standard JSON grammar.
Numbers are kept exact as mantissa × 10^exponent.  Two deliberate
simplifications against CPython's `json.loads`: the non-standard `NaN` /
`Infinity` extensions are not modelled, and a redundant leading zero in a
number is accepted rather than rejected; neither affects any claim. -/

/-- A parsed JSON value. -/
inductive Json where
  | null
  | bool (b : Bool)
  | num (mantissa exponent : Int)
  | str (s : String)
  | arr (elems : List Json)
  | obj (fields : List (String × Json))

/-- The JSON-grammar whitespace accepted between tokens. -/
def isJsonWs (c : Char) : Bool := c = ' ' || c = '\t' || c = '\n' || c = '\r'

/-- Skip inter-token whitespace. -/
def skipJsonWs (l : List Char) : List Char := l.dropWhile isJsonWs

/-- The single-character string escapes. -/
def escChar : Char → Option Char
  | '"' => some '"'
  | '\\' => some '\\'
  | '/' => some '/'
  | 'b' => some '\x08'
  | 'f' => some '\x0c'
  | 'n' => some '\n'
  | 'r' => some '\r'
  | 't' => some '\t'
  | _ => Option.none

/-- Hex digit value. -/
def hexDigit (c : Char) : Option Nat :=
  if '0' ≤ c ∧ c ≤ '9' then some (c.toNat - '0'.toNat)
  else if 'a' ≤ c ∧ c ≤ 'f' then some (c.toNat - 'a'.toNat + 10)
  else if 'A' ≤ c ∧ c ≤ 'F' then some (c.toNat - 'A'.toNat + 10)
  else Option.none

/-- A `\uXXXX` escape. -/
def hexQuad (a b c d : Char) : Option Char := do
  let va ← hexDigit a
  let vb ← hexDigit b
  let vc ← hexDigit c
  let vd ← hexDigit d
  some (Char.ofNat (((va * 16 + vb) * 16 + vc) * 16 + vd))

/-- String-literal body, after the opening quote; yields the decoded string
and the input after the closing quote. -/
def pstring (acc : List Char) : List Char → Option (String × List Char)
  | [] => Option.none
  | c :: rest =>
    if c = '"' then some (acc.reverse.asString, rest)
    else if c = '\\' then
      match rest with
      | [] => Option.none
      | e :: rest2 =>
        if e = 'u' then
          match rest2 with
          | a :: b :: c2 :: d :: rest3 =>
              (match hexQuad a b c2 d with
              | some ch => pstring (ch :: acc) rest3
              | Option.none => Option.none)
          | _ => Option.none
        else
          match escChar e with
          | some ch => pstring (ch :: acc) rest2
          | Option.none => Option.none
    else pstring (c :: acc) rest

/-- A maximal run of decimal digits, and the rest. -/
def digitRun (l : List Char) : List Char × List Char :=
  (l.takeWhile Char.isDigit, l.dropWhile Char.isDigit)

/-- Decimal digits to a natural value, as an `Int`. -/
def digitsInt (ds : List Char) : Int :=
  (ds.foldl (fun acc c => acc * 10 + (c.toNat - '0'.toNat)) 0 : Nat)

/-- The optional exponent part of a number literal, applied to an
already-built mantissa; yields the value and the rest of the input. -/
def pnumExp (mant exp10 : Int) (l : List Char) : Option (Json × List Char) :=
  match l with
  | [] => some (.num mant exp10, [])
  | c :: r =>
    if c = 'e' ∨ c = 'E' then
      let es : Int × List Char :=
        match r with
        | [] => (1, [])
        | c2 :: r2 =>
          if c2 = '+' then (1, r2)
          else if c2 = '-' then (-1, r2)
          else (1, c2 :: r2)
      let ed := digitRun es.2
      if ed.1.isEmpty then Option.none
      else some (.num mant (exp10 + es.1 * digitsInt ed.1), ed.2)
    else some (.num mant exp10, c :: r)

/-- The unsigned part of a number literal: integer digits, optional
fraction, optional exponent. -/
def pnumBody (sign : Int) (l2 : List Char) : Option (Json × List Char) :=
  if (digitRun l2).1.isEmpty then Option.none
  else
    match (digitRun l2).2 with
    | [] => pnumExp (sign * digitsInt (digitRun l2).1) 0 []
    | c :: r =>
      if c = '.' then
        if (digitRun r).1.isEmpty then Option.none
        else
          pnumExp (sign * digitsInt ((digitRun l2).1 ++ (digitRun r).1))
            (-((digitRun r).1.length : Int)) (digitRun r).2
      else pnumExp (sign * digitsInt (digitRun l2).1) 0 (c :: r)

/-- A JSON number literal: optional `-` sign followed by the unsigned
body. -/
def pnumber (l : List Char) : Option (Json × List Char) :=
  match l with
  | [] => pnumBody 1 []
  | c :: r => if c = '-' then pnumBody (-1) r else pnumBody 1 (c :: r)

/-- `if pat.isPrefixOf l` then the input after that literal. -/
def expectTail (pat l : List Char) : Option (List Char) :=
  if pat.isPrefixOf l then some (l.drop pat.length) else Option.none

mutual
/-- One JSON value, starting at a non-whitespace character. -/
def pvalue : Nat → List Char → Option (Json × List Char)
  | 0, _ => Option.none
  | fuel + 1, l =>
    match l with
    | [] => Option.none
    | c :: r =>
      if c = 'n' then (expectTail ['u', 'l', 'l'] r).map (fun r2 => (.null, r2))
      else if c = 't' then (expectTail ['r', 'u', 'e'] r).map (fun r2 => (.bool true, r2))
      else if c = 'f' then
        (expectTail ['a', 'l', 's', 'e'] r).map (fun r2 => (.bool false, r2))
      else if c = '"' then (pstring [] r).map (fun p => (.str p.1, p.2))
      else if c = '[' then
        match skipJsonWs r with
        | [] => Option.none
        | c1 :: r2 =>
          if c1 = ']' then some (.arr [], r2)
          else (pitems fuel (c1 :: r2)).map (fun p => (.arr p.1, p.2))
      else if c = '{' then
        match skipJsonWs r with
        | [] => Option.none
        | c1 :: r2 =>
          if c1 = '}' then some (.obj [], r2)
          else (pmembers fuel (c1 :: r2)).map (fun p => (.obj p.1, p.2))
      else if c = '-' ∨ c.isDigit then pnumber (c :: r)
      else Option.none

/-- One-or-more comma-separated array items, ending at `]`. -/
def pitems : Nat → List Char → Option (List Json × List Char)
  | 0, _ => Option.none
  | fuel + 1, l =>
    match pvalue fuel l with
    | some (v, r) =>
        (match skipJsonWs r with
        | [] => Option.none
        | c :: r2 =>
          if c = ',' then
            match pitems fuel (skipJsonWs r2) with
            | some (vs, r3) => some (v :: vs, r3)
            | Option.none => Option.none
          else if c = ']' then some ([v], r2)
          else Option.none)
    | Option.none => Option.none

/-- One-or-more comma-separated object members, ending at `}`. -/
def pmembers : Nat → List Char → Option (List (String × Json) × List Char)
  | 0, _ => Option.none
  | fuel + 1, l =>
    match l with
    | [] => Option.none
    | c :: r =>
      if c = '"' then
        match pstring [] r with
        | some (key, r1) =>
            (match skipJsonWs r1 with
            | [] => Option.none
            | c2 :: r2 =>
              if c2 = ':' then
                match pvalue fuel (skipJsonWs r2) with
                | some (v, r3) =>
                    (match skipJsonWs r3 with
                    | [] => Option.none
                    | c3 :: r4 =>
                      if c3 = ',' then
                        match pmembers fuel (skipJsonWs r4) with
                        | some (ms, r5) => some ((key, v) :: ms, r5)
                        | Option.none => Option.none
                      else if c3 = '}' then some ([(key, v)], r4)
                      else Option.none)
                | Option.none => Option.none
              else Option.none)
        | Option.none => Option.none
      else Option.none
end

/-- `json.loads` on a character list: one complete value, with only
whitespace around it. -/
def json_loads_list (l : List Char) : Option Json :=
  match pvalue (2 * l.length + 2) (skipJsonWs l) with
  | some (v, r) => if skipJsonWs r = [] then some v else Option.none
  | Option.none => Option.none

/-- `json.loads`. -/
def json_loads (s : String) : Option Json := json_loads_list s.toList

/-! ### Structured extractor (`parser_service.py` `parse_medical_report`,
with the chatbot call of `chatbot_service.py` `generate_structured_response`) -/

/-- The possible outcomes of `self.model.generate_content(prompt)` inside
`generate_structured_response`: a text, a response without text, an
exception, or a never-initialized model. -/
inductive ChatbotCallOutcome where
  | text (t : String)
  | noText
  | exn (name msg : String)
  | uninitialized

/-- `MedicalChatbot.generate_structured_response` (chatbot_service.py lines
320-360): every failure mode is caught and converted into a sentinel
string, so the method itself never raises. -/
def generate_structured_response : ChatbotCallOutcome → String
  | .uninitialized => "AI model is not initialized for structured response."
  | .text t => t
  | .noText => "AI model generated no text response for structured task."
  | .exn n m =>
      "Error communicating with AI model for structured task: " ++ n ++ ": " ++ m

/-- The leading fence marker tested by `startswith` (line 150). -/
def fenceOpen : List Char := "```json".toList

/-- The trailing fence marker tested by `endswith` (line 152). -/
def fenceClose : List Char := "```".toList

/-- The fence-stripping post-processing of `parse_medical_report` (lines
146-154): strip, drop a leading ```` ```json ````, drop a trailing
```` ``` ````, strip again. -/
def clean_output_list (raw : List Char) : List Char :=
  let c1 := pyStripL raw
  let c2 := if fenceOpen.isPrefixOf c1 then c1.drop fenceOpen.length else c1
  let c3 :=
    if fenceClose.reverse.isPrefixOf c2.reverse then
      c2.take (c2.length - fenceClose.length)
    else c2
  pyStripL c3

/-- The fence-stripping post-processing, on strings. -/
def clean_output (raw : String) : String := (clean_output_list raw.toList).asString

/-- Python type name of a parsed JSON value (`json.loads` returns `dict`,
`list`, `str`, `int`/`float`, `bool`, `NoneType`). -/
def jsonTypeName : Json → String
  | .null => "NoneType"
  | .bool _ => "bool"
  | .num _ _ => "int"
  | .str _ => "str"
  | .arr _ => "list"
  | .obj _ => "dict"

/-- Dict lookup with default on a parsed JSON object (`parsed_data.get`);
as in `dictGetD`, the last binding of a key wins. -/
def jGetD (kvs : List (String × Json)) (k : String) (d : Json) : Json :=
  match kvs.reverse.find? (fun kv => kv.1 == k) with
  | some kv => kv.2
  | Option.none => d

/-- Dict lookup without default, `none` for an absent key. -/
def jFind (kvs : List (String × Json)) (k : String) : Option Json :=
  match kvs.reverse.find? (fun kv => kv.1 == k) with
  | some kv => some kv.2
  | Option.none => Option.none

/-- `isinstance(v, list)`. -/
def isJsonList : Json → Bool
  | .arr _ => true
  | _ => false

/-- The five fixed extraction categories, in the order the code writes
them. -/
def category_keys : List String :=
  ["medications", "diagnoses", "allergies", "consultations", "immunizations"]

/-- The normalization step of `parse_medical_report` (lines 160-175): read
each of the five category keys with an empty-list default, then replace any
non-list value by an empty list. -/
def extract_categories (parsed : List (String × Json)) : List (String × Json) :=
  let extracted : List (String × Json) :=
    [("medications", jGetD parsed "medications" (.arr [])),
     ("diagnoses", jGetD parsed "diagnoses" (.arr [])),
     ("allergies", jGetD parsed "allergies" (.arr [])),
     ("consultations", jGetD parsed "consultations" (.arr [])),
     ("immunizations", jGetD parsed "immunizations" (.arr []))]
  extracted.map (fun kv => (kv.1, if isJsonList kv.2 then kv.2 else Json.arr []))

/-- Modelled: `str()` of a `json.JSONDecodeError` reports a parse position
("Expecting value: line L column C (char N)") and never contains the
document being parsed. -/
def jsonDecodeErrorStr : String := "Expecting value: line 1 column 1 (char 0)"

/-- `MedicalReportParser.parse_medical_report` (parser_service.py lines
47-198), with the chatbot call outcome explicit.  Control flow as in the
source: a blank report returns `\x7b\x7d` before any AI call; the inner `try`
turns a `json.JSONDecodeError` into a raised `ValueError` and any other
processing error (e.g. `.get` on a non-dict parse result) into a raised
`RuntimeError`; both propagate out of the inner `try` into the outer
`except Exception`, which re-raises `RuntimeError("Error during AI parsing
call: ...")`. -/
def parse_medical_report (report_text : String) (outcome : ChatbotCallOutcome) :
    Except PyErr (List (String × Json)) :=
  if report_text = "" || pyStrip report_text = "" then .ok []
  else
    let raw := generate_structured_response outcome
    let inner : Except PyErr (List (String × Json)) :=
      match json_loads (clean_output raw) with
      | some (Json.obj fields) => .ok (extract_categories fields)
      | some v =>
          .error (.runtimeError ("Error processing AI output: " ++
            "'" ++ jsonTypeName v ++ "' object has no attribute 'get'"))
      | Option.none =>
          .error (.valueError ("AI returned invalid JSON format: " ++
            jsonDecodeErrorStr))
    match inner with
    | .ok d => .ok d
    | .error e =>
        .error (.runtimeError ("Error during AI parsing call: " ++ pyErrStr e))

/-! ### Context formatter (`chatbot_service.py` `_format_patient_data`,
lines 69-177) -/

/-- `strftime('%Y-%m-%d')`. -/
def strfDate (y mo d : Nat) : String := pad4 y ++ "-" ++ pad2 mo ++ "-" ++ pad2 d

/-- `strftime('%Y-%m-%d %H:%M')`. -/
def strfDateTime (y mo d h mi : Nat) : String :=
  strfDate y mo d ++ " " ++ pad2 h ++ ":" ++ pad2 mi

/-- One entry of the Current Medications block: a dict is rendered from its
attributes, anything else through `str()` (lines 123-127). -/
def render_medication_item (med : PyVal) : String :=
  match med with
  | .dict kvs =>
      "- " ++ pyToStr (dictGetD kvs "name" (.str "N/A")) ++ " (" ++
        pyToStr (dictGetD kvs "dosage" (.str "N/A")) ++ ", " ++
        pyToStr (dictGetD kvs "frequency" (.str "N/A")) ++ ")\n"
  | _ => "- " ++ pyToStr med ++ "\n"

/-- One entry of the Diagnoses block (lines 134-138). -/
def render_diagnosis_item (diag : PyVal) : String :=
  match diag with
  | .dict kvs =>
      "- " ++ pyToStr (dictGetD kvs "disease" (.str "N/A")) ++ " (Year: " ++
        pyToStr (dictGetD kvs "year" (.str "N/A")) ++ ")\n"
  | _ => "- " ++ pyToStr diag ++ "\n"

/-- One entry of the Reports block (lines 149-158): the date prints via
`strftime` for a datetime, as-is when truthy, `'N/A'` otherwise. -/
def render_report_item (report : PyVal) : String :=
  match report with
  | .dict kvs =>
      let dateObj := dictGetD kvs "date" .none
      let dateStr := match dateObj with
        | .dt y mo d _ _ _ => strfDate y mo d
        | v => if pyTruthy v then pyToStr v else "N/A"
      "- " ++ pyToStr (dictGetD kvs "report_type" (.str "Report")) ++ " on " ++
        dateStr ++ ": " ++
        pyToStr (dictGetD kvs "description" (.str "Content not available.")) ++ "\n"
  | _ => "- " ++ pyToStr report ++ "\n"

/-- One entry of the Immunizations block (lines 164-171). -/
def render_immunization_item (imm : PyVal) : String :=
  match imm with
  | .dict kvs =>
      let dateObj := dictGetD kvs "date" .none
      let dateStr := match dateObj with
        | .dt y mo d _ _ _ => strfDate y mo d
        | v => if pyTruthy v then pyToStr v else "N/A"
      "- " ++ pyToStr (dictGetD kvs "name" (.str "Vaccine")) ++ " on " ++
        dateStr ++ " by " ++
        pyToStr (dictGetD kvs "administered_by" (.str "N/A")) ++ ". Lot: " ++
        pyToStr (dictGetD kvs "lot_number" (.str "N/A")) ++ "\n"
  | _ => "- " ++ pyToStr imm ++ "\n"

/-- The patient-information block (lines 82-106), executed only when
`patient_info` is truthy; its `.get` accesses raise on a truthy non-dict,
exactly as in Python. -/
def render_patient_info (patient_info : PyVal) : Except PyErr String :=
  if ¬ pyTruthy patient_info then .ok "" else do
    let idv ← pyGet patient_info "_id" .none
    let namev ← pyGet patient_info "name" (.dict [])
    let first ← pyGet namev "first" (.str "N/A")
    let last ← pyGet namev "last" (.str "")
    let email ← pyGet patient_info "email" (.str "N/A")
    let age ← pyGet patient_info "age" (.str "N/A")
    let gender ← pyGet patient_info "gender" (.str "N/A")
    let phone ← pyGet patient_info "phone_number" (.str "N/A")
    let addr ← pyGet patient_info "address" (.dict [])
    let street ← pyGet addr "street" (.str "N/A")
    let city ← pyGet addr "city" (.str "N/A")
    let state ← pyGet addr "state" (.str "N/A")
    let zipv ← pyGet addr "zip" (.str "N/A")
    let country ← pyGet addr "country" (.str "N/A")
    let regDate ← pyGet patient_info "registration_date" .none
    let regLine := match regDate with
      | .dt y mo d h mi _ => "Registration Date: " ++ strfDateTime y mo d h mi ++ "\n"
      | v => if pyTruthy v then "Registration Date: " ++ pyToStr v ++ "\n" else ""
    let dob ← pyGet patient_info "date_of_birth" .none
    let dobLine := match dob with
      | .dt y mo d _ _ _ => "Date of Birth: " ++ strfDate y mo d ++ "\n"
      | v => if pyTruthy v then "Date of Birth: " ++ pyToStr v ++ "\n" else ""
    pure ("Patient ID: " ++ pyToStr idv ++ "\n" ++
      "Name: " ++ pyToStr first ++ " " ++ pyToStr last ++ "\n" ++
      "Email: " ++ pyToStr email ++ "\n" ++
      "Age: " ++ pyToStr age ++ "\n" ++
      "Gender: " ++ pyToStr gender ++ "\n" ++
      "Phone: " ++ pyToStr phone ++ "\n" ++
      "Address: " ++ pyToStr street ++ ", " ++ pyToStr city ++ ", " ++
        pyToStr state ++ ", " ++ pyToStr zipv ++ ", " ++ pyToStr country ++ "\n" ++
      regLine ++ dobLine)

/-- The medical-record block (lines 109-175).  The allergies line joins the
raw items, so a non-string allergy raises `TypeError`; the medication,
diagnosis, report and immunization loops check `isinstance(..., dict)`
per item and so accept both dicts and strings. -/
def render_medical_record (medical_record : PyVal) : Except PyErr String :=
  if ¬ pyTruthy medical_record then .ok "No medical record details available.\n" else do
    let allergiesV ← pyGet medical_record "allergies" (.list [.str "None"])
    let allergyItems ← pyIter allergiesV
    let allergiesStr ← pyJoinStrs ", " allergyItems
    let famV ← pyGet medical_record "family_medical_history" .none
    let famLine :=
      if pyTruthy famV then "Family Medical History: " ++ pyToStr famV ++ "\n"
      else "Family Medical History: None provided.\n"
    let medsV ← pyGet medical_record "current_medications" (.list [])
    let medsLines ←
      if pyTruthy medsV then do
        let items ← pyIter medsV
        pure ("Current Medications:\n" ++ String.join (items.map render_medication_item))
      else pure ""
    let diagsV ← pyGet medical_record "diagnoses" (.list [])
    let diagsLines ←
      if pyTruthy diagsV then do
        let items ← pyIter diagsV
        pure ("Diagnoses:\n" ++ String.join (items.map render_diagnosis_item))
      else pure ""
    let presV ← pyGet medical_record "prescriptions" (.list [.str "None"])
    let presItems ← pyIter presV
    let presStr := String.intercalate "\n" (presItems.map pyToStr)
    let consV ← pyGet medical_record "consultation_history" (.list [.str "None provided."])
    let consItems ← pyIter consV
    let consStr := String.intercalate "\n" (consItems.map pyToStr)
    let repsV ← pyGet medical_record "reports" (.list [])
    let repsLines ←
      if pyTruthy repsV then do
        let items ← pyIter repsV
        pure ("Reports:\n" ++ String.join (items.map render_report_item))
      else pure ""
    let immsV ← pyGet medical_record "immunizations" (.list [])
    let immsLines ←
      if pyTruthy immsV then do
        let items ← pyIter immsV
        pure ("Immunizations:\n" ++ String.join (items.map render_immunization_item))
      else pure ""
    pure ("Allergies: " ++ allergiesStr ++ "\n" ++ famLine ++ medsLines ++
      diagsLines ++ "Prescriptions: " ++ presStr ++ "\n" ++
      "Consultation History: " ++ consStr ++ "\n" ++ repsLines ++ immsLines)

/-- `MedicalChatbot._format_patient_data` (lines 69-177): unpack the nested
`patient` / `medical_record` dicts, short-circuit when both are falsy, then
render the two blocks in source order. -/
def format_patient_data (patient_data : List (String × PyVal)) :
    Except PyErr String :=
  let patient_info := dictGetD patient_data "patient" (.dict [])
  let medical_record := dictGetD patient_data "medical_record" (.dict [])
  if ¬ pyTruthy patient_info ∧ ¬ pyTruthy medical_record then
    .ok "No patient data available."
  else do
    let pSec ← render_patient_info patient_info
    let mSec ← render_medical_record medical_record
    pure (pSec ++ "\n--- Medical Record ---\n" ++ mSec)

/-! ### Discriminators and shape predicates used by the theorems -/

/-- The returned label of a severity classification, `none` if it raised. -/
def okLabel : Except PyErr String → Option String
  | .ok s => some s
  | .error _ => Option.none

/-- The characters a JSON document can start with (after whitespace). -/
def startOK (c : Char) : Bool :=
  c = 'n' || c = 't' || c = 'f' || c = '"' || c = '[' || c = '{' || c = '-' || c.isDigit

/-- The characters a JSON document can end with (before whitespace). -/
def endOK (c : Char) : Bool :=
  c = 'l' || c = 'e' || c = '"' || c = ']' || c = '}' || c.isDigit

/-- `isinstance(v, dict)`. -/
def isDictV : PyVal → Bool
  | .dict _ => true
  | _ => false

/-- `isinstance(v, list)`. -/
def isListV : PyVal → Bool
  | .list _ => true
  | _ => false

/-- `isinstance(v, str)`. -/
def isStrV : PyVal → Bool
  | .str _ => true
  | _ => false

/-- A list value all of whose items are strings. -/
def allStrItems (v : PyVal) : Bool :=
  match v with
  | .list xs => xs.all isStrV
  | _ => false

/-- Shape of a `patient` sub-document within the scope of the formatter
claim: a dict whose `name` and `address` fields, when present, are dicts;
every other field may be missing or hold any value. -/
def wellShapedPatient (pi : PyVal) : Bool :=
  match pi with
  | .dict kvs =>
      isDictV (dictGetD kvs "name" (.dict [])) &&
      isDictV (dictGetD kvs "address" (.dict []))
  | _ => false

/-- Shape of a `medical_record` sub-document within the scope of the
formatter claim: a dict whose list fields, when present, are lists; the
allergy items must moreover be strings (the formatter joins them raw). -/
def wellShapedMedical (mr : PyVal) : Bool :=
  match mr with
  | .dict kvs =>
      allStrItems (dictGetD kvs "allergies" (.list [.str "None"])) &&
      isListV (dictGetD kvs "current_medications" (.list [])) &&
      isListV (dictGetD kvs "diagnoses" (.list [])) &&
      isListV (dictGetD kvs "prescriptions" (.list [.str "None"])) &&
      isListV (dictGetD kvs "consultation_history" (.list [.str "None provided."])) &&
      isListV (dictGetD kvs "reports" (.list [])) &&
      isListV (dictGetD kvs "immunizations" (.list []))
  | _ => false

/-- Shape of a complete `patient_data` argument within the scope of the
formatter claim: any combination of fields may be absent, present nested
documents are dicts, present list fields are lists, allergy items are
strings. -/
def wellShapedPatientData (pd : List (String × PyVal)) : Bool :=
  wellShapedPatient (dictGetD pd "patient" (.dict [])) &&
  wellShapedMedical (dictGetD pd "medical_record" (.dict []))

/-! ## Theorems -/

/-- `List.contains` agrees with membership for strings. -/
lemma contains_iff_mem (l : List String) (a : String) : l.contains a = true ↔ a ∈ l := by
  simp [List.contains, List.elem_iff]

/-- Membership in the allergy union is membership in either side. -/
lemma mem_unionAllergies (ext : List String) : ∀ (cur : List String) (a : String),
    a ∈ unionAllergies cur ext ↔ a ∈ cur ∨ a ∈ ext := by
  induction ext with
  | nil => intro cur a; simp [unionAllergies]
  | cons x xs ih =>
      intro cur a
      have step : unionAllergies cur (x :: xs) =
          unionAllergies (if cur.contains x then cur else cur ++ [x]) xs := rfl
      rw [step, ih]
      by_cases hx : x ∈ cur
      · rw [if_pos ((contains_iff_mem cur x).mpr hx)]
        simp only [List.mem_cons]
        constructor
        · tauto
        · rintro (h | h | h)
          · exact Or.inl h
          · exact Or.inl (by rw [h]; exact hx)
          · exact Or.inr h
      · rw [if_neg (fun hc => hx ((contains_iff_mem cur x).mp hc))]
        simp only [List.mem_append, List.mem_singleton, List.mem_cons]
        tauto

/-- C4: merging an `ExtractedEntitySet` into a `MedicalRecord` appends
every category list (`current_list + extracted_list`), while allergies are
combined as a case-sensitive set union of strings: merging `["Penicillin"]`
into a record already containing `["Penicillin", "Shellfish"]` yields
exactly `["Penicillin", "Shellfish"]`, with no duplicate, while the
differently-cased `"penicillin"` would be appended as a new element. -/
theorem C4_allergies_set_union_others_append :
    (∀ (α : Type) (rec : MergeRecord α) (es : ExtractedEntitySet α),
      (merge_into_record rec es).current_medications =
          rec.current_medications ++ es.medications ∧
      (merge_into_record rec es).diagnoses = rec.diagnoses ++ es.diagnoses ∧
      (merge_into_record rec es).consultation_history =
          rec.consultation_history ++ es.consultations ∧
      (merge_into_record rec es).immunizations =
          rec.immunizations ++ es.immunizations ∧
      (∀ a, a ∈ (merge_into_record rec es).allergies ↔
          a ∈ rec.allergies ∨ a ∈ es.allergies)) ∧
    (merge_into_record (α := Unit)
        ⟨"p1", [], [], ["Penicillin", "Shellfish"], [], []⟩
        ⟨[], [], ["Penicillin"], [], []⟩).allergies =
      ["Penicillin", "Shellfish"] ∧
    (merge_into_record (α := Unit)
        ⟨"p1", [], [], ["Penicillin"], [], []⟩
        ⟨[], [], ["penicillin"], [], []⟩).allergies =
      ["Penicillin", "penicillin"] := by
  refine ⟨fun α rec es => ⟨rfl, rfl, rfl, rfl, fun a => ?_⟩, ?_, ?_⟩
  · exact mem_unionAllergies es.allergies rec.allergies a
  · decide
  · decide

/-- C5: the Report Content Store claim, evaluated at its failing input.
With a store holding document `1 ↦ "t1"` and a save request for `"t2"`
that a client sends together with `content_id = 1`, the endpoint inserts a
new document (fresh id `2`) instead of replacing document `1`: the request
model drops the `content_id` field, so the edit branch is unreachable.
The fresh-store round trip and the (dead) edit branch's intended semantics
are also evaluated. -/
theorem C5_save_report_text_ignores_existing_id :
    (save_report_text ⟨[(1, "t1")], 2⟩ ⟨"t2"⟩).2 = 2 ∧
    ((save_report_text ⟨[(1, "t1")], 2⟩ ⟨"t2"⟩).2 == 1) = false ∧
    get_report_content (save_report_text ⟨[(1, "t1")], 2⟩ ⟨"t2"⟩).1 1 = some "t1" ∧
    get_report_content (save_report_text ⟨[(1, "t1")], 2⟩ ⟨"t2"⟩).1 2 = some "t2" ∧
    (saveReportBody ⟨[(1, "t1")], 2⟩ "t2" (some 1)).2 = 1 ∧
    get_report_content (saveReportBody ⟨[(1, "t1")], 2⟩ "t2" (some 1)).1 1 = some "t2" ∧
    get_report_content (save_report_text ⟨[], 7⟩ ⟨"t"⟩).1
        (save_report_text ⟨[], 7⟩ ⟨"t"⟩).2 = some "t" := by
  exact ⟨rfl, rfl, rfl, rfl, rfl, rfl, rfl⟩

/-- C6 counterexample: with the credential absent (or empty), the
module-level check of `chatbot_service.py` raises `ValueError` — the import
fails instead of degrading the client to a stub. -/
theorem C6_counterexample_chatbot_import_raises :
    chatbot_service_module_init Option.none =
      .error (.valueError
        "GEMINI_API_KEY not found. Please set it in your .env file or environment.") ∧
    raisedKind (chatbot_service_module_init Option.none) = some "ValueError" ∧
    raisedKind (chatbot_service_module_init (some "")) = some "ValueError" := by
  exact ⟨rfl, rfl, rfl⟩

/-- C6 (amended): the route-module initialization of `appointment_route.py`
does degrade on a missing credential — `gemini_model` becomes `None` and
severity prediction returns `"Unknown"` for every input without raising —
but `chatbot_service.py` instead raises `ValueError` at import time, so the
process only survives a missing credential as long as that module is never
imported. -/
theorem C6_amended_route_degrades_chatbot_raises
    (mr : List (String × PyVal)) (reason notes : Option String)
    (o : GeminiOutcome) :
    appointment_gemini_init Option.none = Option.none ∧
    predict_symptom_severity (appointment_gemini_init Option.none)
        mr reason notes o = .ok "Unknown" ∧
    raisedKind (chatbot_service_module_init Option.none) = some "ValueError" := by
  exact ⟨rfl, rfl, rfl⟩

/-- C2: whenever the Gemini model was never initialized, or the external
generation call raises (which presupposes that the record formatting before
the call succeeded), `predict_symptom_severity` returns exactly `"Unknown"`
and raises nothing to its caller. -/
theorem C2_severity_unknown_never_raises
    (mr : List (String × PyVal)) (reason notes : Option String)
    (o : GeminiOutcome) (ename : String) :
    predict_symptom_severity Option.none mr reason notes o = .ok "Unknown" ∧
    ((medical_info_str mr reason notes).isOk = true →
      predict_symptom_severity (some ()) mr reason notes (.exn ename) =
        .ok "Unknown") := by
  constructor
  · rfl
  · intro h
    cases hfmt : medical_info_str mr reason notes with
    | error e => rw [hfmt] at h; cases h
    | ok info => simp [predict_symptom_severity, hfmt]

/-- Witness for C2 at a concrete input: the empty record formats
successfully and a raising generation call yields `"Unknown"`. -/
theorem C2_severity_unknown_never_raises_witness :
    (medical_info_str [] Option.none Option.none).isOk = true ∧
    predict_symptom_severity (some ()) [] Option.none Option.none
        (.exn "ServerError") = .ok "Unknown" :=
  ⟨rfl, (C2_severity_unknown_never_raises [] Option.none Option.none
      (.resp "") "ServerError").2 rfl⟩

/-- C3 counterexample: the code strips whitespace before the exact-match
test, so the whitespace-padded answer `" Moderate "` is accepted as
`"Moderate"` rather than rejected to `"Unknown"` as the claim states. -/
theorem C3_counterexample_padded_label_accepted :
    predict_symptom_severity (some ()) [] Option.none Option.none
        (.resp " Moderate ") = .ok "Moderate" ∧
    pyStrip " Moderate " = "Moderate" ∧
    ((okLabel (predict_symptom_severity (some ()) [] Option.none Option.none
        (.resp " Moderate "))).getD "" == "Unknown") = false := by
  exact ⟨rfl, rfl, rfl⟩

/-- C3 (amended): the classifier first strips whitespace from the answer;
any answer whose stripped form is not byte-identical to one of the three
valid labels — e.g. `"severe"` or `"VERY SERIOUS"` — yields `"Unknown"`
(no partial matching, no case folding), while a whitespace-padded valid
label such as `" Moderate "` is accepted after the strip. -/
theorem C3_amended_stripped_exact_match
    (mr : List (String × PyVal)) (reason notes : Option String) (t : String)
    (hfmt : (medical_info_str mr reason notes).isOk = true)
    (hnot : (["Very Serious", "Moderate", "Normal"] : List String).contains
        (pyStrip t) = false) :
    predict_symptom_severity (some ()) mr reason notes (.resp t) =
      .ok "Unknown" := by
  cases hf : medical_info_str mr reason notes with
  | error e => rw [hf] at hfmt; cases hfmt
  | ok info =>
      have hnot' : ¬ (pyStrip t = "Very Serious" ∨ pyStrip t = "Moderate" ∨
          pyStrip t = "Normal") := by
        intro hd
        have hc : (["Very Serious", "Moderate", "Normal"] : List String).contains
            (pyStrip t) = true := by
          rcases hd with h | h | h <;> simp [List.contains, List.elem_iff, h]
        rw [hc] at hnot; cases hnot
      simp [predict_symptom_severity, hf, hnot']

/-- Witness for C3 (amended) at the concrete labels the claim names:
`"severe"` and `"VERY SERIOUS"` are both forced to `"Unknown"`. -/
theorem C3_amended_stripped_exact_match_witness :
    predict_symptom_severity (some ()) [] Option.none Option.none
        (.resp "severe") = .ok "Unknown" ∧
    predict_symptom_severity (some ()) [] Option.none Option.none
        (.resp "VERY SERIOUS") = .ok "Unknown" :=
  ⟨C3_amended_stripped_exact_match [] Option.none Option.none "severe" rfl rfl,
   C3_amended_stripped_exact_match [] Option.none Option.none "VERY SERIOUS" rfl rfl⟩

/-- C10: a report text that is empty or whitespace-only makes
`parse_medical_report` return the empty dictionary `\x7b\x7d` — no keys at all,
unlike the five-key result of a successful extraction — without raising and
without the generation call influencing anything (the result is the same
for every outcome of the chatbot service). -/
theorem C10_blank_report_returns_empty_dict
    (rt : String) (h : pyStrip rt = "") (o o2 : ChatbotCallOutcome) :
    parse_medical_report rt o = .ok [] ∧
    parse_medical_report rt o2 = parse_medical_report rt o := by
  have hg : (decide (rt = "") || decide (pyStrip rt = "")) = true := by
    simp [h]
  constructor
  · simp only [parse_medical_report]
    rw [if_pos]
    simp [h]
  · simp only [parse_medical_report]
    rw [if_pos, if_pos] <;> simp [h]

/-- Witness for C10 at a concrete whitespace-only report text and two
different generation outcomes. -/
theorem C10_blank_report_returns_empty_dict_witness :
    parse_medical_report " \n " (.text "ignored") = .ok [] ∧
    parse_medical_report " \n " (.exn "ServerError" "boom") =
      parse_medical_report " \n " (.text "ignored") :=
  C10_blank_report_returns_empty_dict " \n " rfl (.text "ignored")
    (.exn "ServerError" "boom")

/-- `parsed_data.get(k, d)` is lookup-with-default over `jFind`. -/
lemma jGetD_eq_jFind (kvs : List (String × Json)) (k : String) (d : Json) :
    jGetD kvs k d = (jFind kvs k).getD d := by
  unfold jGetD jFind
  cases kvs.reverse.find? (fun kv => kv.1 == k) <;> rfl

/-- Worker for `jFind_extract`: once the lookup in the five-entry result is
evaluated, the entry is the normalized form of the lookup in the parse. -/
lemma jFind_extract_entry (parsed : List (String × Json)) (k : String)
    (h : jFind (extract_categories parsed) k =
      some (if isJsonList (jGetD parsed k (Json.arr [])) then
        jGetD parsed k (Json.arr []) else Json.arr [])) :
    jFind (extract_categories parsed) k =
      some (match jFind parsed k with
        | some (Json.arr xs) => Json.arr xs
        | _ => Json.arr []) := by
  rw [h, jGetD_eq_jFind]
  cases hf : jFind parsed k with
  | none => rfl
  | some v => cases v <;> rfl

/-- Looking up any of the five category keys in the normalized extraction
result gives the parsed value if it was a list, an empty list otherwise. -/
lemma jFind_extract (parsed : List (String × Json)) (k : String)
    (hk : k ∈ category_keys) :
    jFind (extract_categories parsed) k =
      some (match jFind parsed k with
        | some (Json.arr xs) => Json.arr xs
        | _ => Json.arr []) := by
  have hs : k = "medications" ∨ k = "diagnoses" ∨ k = "allergies" ∨
      k = "consultations" ∨ k = "immunizations" := by
    simpa [category_keys] using hk
  rcases hs with rfl | rfl | rfl | rfl | rfl <;>
    exact jFind_extract_entry parsed _ rfl

/-- C1: when the generation output parses to a JSON object,
`parse_medical_report` returns exactly the normalized five categories; for
each of the five fixed keys, an absent key or a present non-list value is
replaced by an empty list, while a present list-typed value is returned
exactly as parsed — so one corrupted field never affects the others. -/
theorem C1_single_bad_category_isolated
    (rt : String) (o : ChatbotCallOutcome) (fields : List (String × Json))
    (k : String) (hrt : pyStrip rt ≠ "")
    (hp : json_loads (clean_output (generate_structured_response o)) =
      some (.obj fields))
    (hk : k ∈ category_keys) :
    parse_medical_report rt o = .ok (extract_categories fields) ∧
    (jFind fields k = Option.none →
      jFind (extract_categories fields) k = some (.arr [])) ∧
    (∀ v, jFind fields k = some v → isJsonList v = false →
      jFind (extract_categories fields) k = some (.arr [])) ∧
    (∀ xs, jFind fields k = some (.arr xs) →
      jFind (extract_categories fields) k = some (.arr xs)) := by
  refine ⟨?_, ?_, ?_, ?_⟩
  · simp only [parse_medical_report]
    split
    · rename_i hcond
      exfalso
      simp only [Bool.or_eq_true, decide_eq_true_eq] at hcond
      rcases hcond with hc | hc
      · exact hrt (by rw [hc]; rfl)
      · exact hrt hc
    · rw [hp]
  · intro hnone
    rw [jFind_extract fields k hk, hnone]
  · intro v hv hvl
    rw [jFind_extract fields k hk, hv]
    cases v <;> try rfl
    simp [isJsonList] at hvl
  · intro xs hxs
    rw [jFind_extract fields k hk, hxs]

/-- Witness for C1 at a concrete fenced generation output in which
`medications` is present but not a list: it is replaced by `[]` while the
well-formed `diagnoses` list passes through untouched. -/
theorem C1_single_bad_category_isolated_witness :
    parse_medical_report "note"
        (.text "```json\n\x7b\"medications\": \"oops\", \"diagnoses\": [\"flu\"]\x7d\n```") =
      .ok (extract_categories
        [("medications", .str "oops"), ("diagnoses", .arr [.str "flu"])]) ∧
    jFind (extract_categories
        [("medications", .str "oops"), ("diagnoses", .arr [.str "flu"])])
      "medications" = some (.arr []) ∧
    jFind (extract_categories
        [("medications", .str "oops"), ("diagnoses", .arr [.str "flu"])])
      "diagnoses" = some (.arr [.str "flu"]) ∧
    jFind (extract_categories
        [("medications", .str "oops"), ("diagnoses", .arr [.str "flu"])])
      "allergies" = some (.arr []) :=
  ⟨(C1_single_bad_category_isolated "note"
      (.text "```json\n\x7b\"medications\": \"oops\", \"diagnoses\": [\"flu\"]\x7d\n```")
      [("medications", .str "oops"), ("diagnoses", .arr [.str "flu"])] "medications"
      (by decide) rfl (by simp [category_keys])).1,
   (C1_single_bad_category_isolated "note"
      (.text "```json\n\x7b\"medications\": \"oops\", \"diagnoses\": [\"flu\"]\x7d\n```")
      [("medications", .str "oops"), ("diagnoses", .arr [.str "flu"])] "medications"
      (by decide) rfl (by simp [category_keys])).2.2.1 (.str "oops") rfl rfl,
   (C1_single_bad_category_isolated "note"
      (.text "```json\n\x7b\"medications\": \"oops\", \"diagnoses\": [\"flu\"]\x7d\n```")
      [("medications", .str "oops"), ("diagnoses", .arr [.str "flu"])] "diagnoses"
      (by decide) rfl (by simp [category_keys])).2.2.2 [.str "flu"] rfl,
   (C1_single_bad_category_isolated "note"
      (.text "```json\n\x7b\"medications\": \"oops\", \"diagnoses\": [\"flu\"]\x7d\n```")
      [("medications", .str "oops"), ("diagnoses", .arr [.str "flu"])] "allergies"
      (by decide) rfl (by simp [category_keys])).2.1 rfl⟩

/-- C7 counterexample: a generation failure (the chatbot's sentinel error
text) and a plainly malformed output make `parse_medical_report` raise the
SAME exception — `RuntimeError` wrapping the identical
`"AI returned invalid JSON format"` message — so there is no distinct typed
`ExtractionFailure` for generation failure, and the raised error carries a
decoder position, not the offending text. -/
theorem C7_counterexample_single_error_type :
    raisedKind (parse_medical_report "note" (.exn "ServerError" "boom")) =
      some "RuntimeError" ∧
    raisedKind (parse_medical_report "note" (.text "no json here")) =
      some "RuntimeError" ∧
    parse_medical_report "note" (.exn "ServerError" "boom") =
      .error (.runtimeError ("Error during AI parsing call: " ++
        "AI returned invalid JSON format: " ++ jsonDecodeErrorStr)) ∧
    parse_medical_report "note" (.text "no json here") =
      .error (.runtimeError ("Error during AI parsing call: " ++
        "AI returned invalid JSON format: " ++ jsonDecodeErrorStr)) := by
  exact ⟨rfl, rfl, rfl, rfl⟩

/-- C7 (amended): on a non-blank report, whenever the fence-stripped
chatbot output is not parseable JSON — which covers generation failure,
since the chatbot converts failures into non-JSON sentinel strings —
`parse_medical_report` raises a `RuntimeError` wrapping the inner
`ValueError`'s `"AI returned invalid JSON format"` message (one exception
type for both failure modes, offending text only logged), and in
particular never returns an empty entity set. -/
theorem C7_amended_failure_raises_never_empty
    (rt : String) (o : ChatbotCallOutcome) (hrt : pyStrip rt ≠ "")
    (hbad : json_loads (clean_output (generate_structured_response o)) =
      Option.none) :
    parse_medical_report rt o =
      .error (.runtimeError ("Error during AI parsing call: " ++
        "AI returned invalid JSON format: " ++ jsonDecodeErrorStr)) := by
  simp only [parse_medical_report]
  split
  · rename_i hcond
    exfalso
    simp only [Bool.or_eq_true, decide_eq_true_eq] at hcond
    rcases hcond with hc | hc
    · exact hrt (by rw [hc]; rfl)
    · exact hrt hc
  · rw [hbad]
    rfl

/-- Witness for C7 (amended) at a concrete generation failure. -/
theorem C7_amended_failure_raises_never_empty_witness :
    parse_medical_report "note" (.exn "DeadlineExceeded" "timed out") =
      .error (.runtimeError ("Error during AI parsing call: " ++
        "AI returned invalid JSON format: " ++ jsonDecodeErrorStr)) :=
  C7_amended_failure_raises_never_empty "note" (.exn "DeadlineExceeded" "timed out")
    (by decide) rfl

/-- Bind on `Except` reduces on an `ok`. -/
lemma except_bind_ok {α β : Type} (a : α) (f : α → Except PyErr β) :
    (Except.ok a >>= f : Except PyErr β) = f a := rfl

/-- `pure` on `Except` is `ok`. -/
lemma except_pure {α : Type} (a : α) : (pure a : Except PyErr α) = .ok a := rfl

/-- Joining a list of string values never raises. -/
lemma pyJoinStrsFrom_ok (sep : String) : ∀ (items : List PyVal) (idx : Nat),
    (∀ x ∈ items, isStrV x = true) → ∃ s, pyJoinStrsFrom sep idx items = .ok s := by
  intro items
  induction items with
  | nil => exact fun idx _ => ⟨"", rfl⟩
  | cons v rest ih =>
      intro idx h
      have hv : isStrV v = true := h v (List.mem_cons_self v rest)
      have hrest : ∀ x ∈ rest, isStrV x = true :=
        fun x hx => h x (List.mem_cons_of_mem v hx)
      cases v <;> simp [isStrV] at hv
      case str s =>
        cases rest with
        | nil => exact ⟨s, rfl⟩
        | cons v2 rest2 =>
            obtain ⟨t, ht⟩ := ih (idx + 1) hrest
            exact ⟨s ++ sep ++ t, by simp [pyJoinStrsFrom, ht]⟩

/-- `sep.join` on all-string items never raises. -/
lemma pyJoinStrs_ok (sep : String) (items : List PyVal)
    (h : ∀ x ∈ items, isStrV x = true) : ∃ s, pyJoinStrs sep items = .ok s :=
  pyJoinStrsFrom_ok sep items 0 h

/-- The patient-information block never raises on a well-shaped patient
sub-document. -/
lemma render_patient_info_ok (pi : PyVal) (h : wellShapedPatient pi = true) :
    ∃ s, render_patient_info pi = .ok s := by
  cases pi <;> simp [wellShapedPatient] at h
  case dict kvs =>
  obtain ⟨hn, ha⟩ := h
  cases hnv : dictGetD kvs "name" (.dict []) <;> rw [hnv] at hn <;>
    simp [isDictV] at hn
  case dict nkvs =>
  cases hav : dictGetD kvs "address" (.dict []) <;> rw [hav] at ha <;>
    simp [isDictV] at ha
  case dict akvs =>
  unfold render_patient_info
  split
  · exact ⟨"", rfl⟩
  · simp only [pyGet, except_bind_ok, hnv, hav, except_pure]
    exact ⟨_, rfl⟩

/-- The medical-record block never raises on a well-shaped record
sub-document. -/
lemma render_medical_record_ok (mr : PyVal) (h : wellShapedMedical mr = true) :
    ∃ s, render_medical_record mr = .ok s := by
  cases mr <;> simp [wellShapedMedical] at h
  case dict kvs =>
  obtain ⟨⟨⟨⟨⟨⟨hall, hmed⟩, hdiag⟩, hpres⟩, hcons⟩, hreps⟩, himm⟩ := h
  cases hallv : dictGetD kvs "allergies" (.list [.str "None"]) <;>
    rw [hallv] at hall <;> simp [allStrItems] at hall
  case list axs =>
  cases hmedv : dictGetD kvs "current_medications" (.list []) <;>
    rw [hmedv] at hmed <;> simp [isListV] at hmed
  case list mxs =>
  cases hdiagv : dictGetD kvs "diagnoses" (.list []) <;>
    rw [hdiagv] at hdiag <;> simp [isListV] at hdiag
  case list dxs =>
  cases hpresv : dictGetD kvs "prescriptions" (.list [.str "None"]) <;>
    rw [hpresv] at hpres <;> simp [isListV] at hpres
  case list pxs =>
  cases hconsv : dictGetD kvs "consultation_history" (.list [.str "None provided."]) <;>
    rw [hconsv] at hcons <;> simp [isListV] at hcons
  case list cxs =>
  cases hrepsv : dictGetD kvs "reports" (.list []) <;>
    rw [hrepsv] at hreps <;> simp [isListV] at hreps
  case list rxs =>
  cases himmv : dictGetD kvs "immunizations" (.list []) <;>
    rw [himmv] at himm <;> simp [isListV] at himm
  case list ixs =>
  obtain ⟨js, hjs⟩ := pyJoinStrs_ok ", " axs (by simpa using hall)
  unfold render_medical_record
  split
  · exact ⟨_, rfl⟩
  · simp only [pyGet, except_bind_ok, hallv, hmedv, hdiagv, hpresv, hconsv,
      hrepsv, himmv, pyIter, hjs, except_pure]
    repeat' split
    all_goals exact ⟨_, rfl⟩

/-- C9 counterexample: an allergies list containing a structured object —
an input squarely inside the claim's "items are either structured objects
or bare strings" scope — makes `_format_patient_data` raise `TypeError`
from the raw `", ".join`, instead of rendering it. -/
theorem C9_counterexample_object_allergy_raises :
    format_patient_data
        [("medical_record", .dict [("allergies", .list [.dict []])])] =
      .error (.typeError "sequence item 0: expected str instance, dict found") ∧
    raisedKind (format_patient_data
        [("medical_record", .dict [("allergies", .list [.dict []])])]) =
      some "TypeError" := by
  exact ⟨rfl, rfl⟩

/-- C9 (amended): with any combination of fields missing — and present
nested documents dicts, present list fields lists, allergy items strings —
`_format_patient_data` produces a text without raising, every field access
falling back to its explicit placeholder; the medication/diagnosis/report/
immunization items accept both structured objects (attribute lookup with
`'N/A'`-style defaults) and bare strings (string fallback).  Allergies are
the exception the counterexample exhibits: their items must be strings. -/
theorem C9_amended_formatter_total_on_shaped_input
    (pd : List (String × PyVal)) (h : wellShapedPatientData pd = true) :
    (∃ s, format_patient_data pd = .ok s) ∧
    (∀ s, render_medication_item (.str s) = "- " ++ s ++ "\n") ∧
    render_medication_item (.dict []) = "- N/A (N/A, N/A)\n" ∧
    (∀ s, render_report_item (.str s) = "- " ++ s ++ "\n") ∧
    render_report_item (.dict []) = "- Report on N/A: Content not available.\n" := by
  refine ⟨?_, fun s => rfl, rfl, fun s => rfl, rfl⟩
  unfold wellShapedPatientData at h
  rw [Bool.and_eq_true] at h
  obtain ⟨hp, hm⟩ := h
  obtain ⟨s1, h1⟩ := render_patient_info_ok _ hp
  obtain ⟨s2, h2⟩ := render_medical_record_ok _ hm
  simp only [format_patient_data]
  split
  · exact ⟨_, rfl⟩
  · simp only [h1, h2, except_bind_ok, except_pure]
    exact ⟨_, rfl⟩

/-- Witness for C9 (amended) at a concrete input with missing fields and
both object- and string-typed medication items. -/
theorem C9_amended_formatter_total_witness :
    wellShapedPatientData
      [("patient", .dict [("name", .dict [("first", .str "Jo")])]),
       ("medical_record", .dict
         [("current_medications",
            .list [.dict [("name", .str "Aspirin")], .str "Ibuprofen"]),
          ("allergies", .list [.str "Penicillin"])])] = true ∧
    (∃ s, format_patient_data
      [("patient", .dict [("name", .dict [("first", .str "Jo")])]),
       ("medical_record", .dict
         [("current_medications",
            .list [.dict [("name", .str "Aspirin")], .str "Ibuprofen"]),
          ("allergies", .list [.str "Penicillin"])])] = .ok s) :=
  ⟨rfl, (C9_amended_formatter_total_on_shaped_input
      [("patient", .dict [("name", .dict [("first", .str "Jo")])]),
       ("medical_record", .dict
         [("current_medications",
            .list [.dict [("name", .str "Aspirin")], .str "Ibuprofen"]),
          ("allergies", .list [.str "Penicillin"])])] rfl).1⟩

/-! ### Facts about `strip` and the JSON lexer, towards the fence-stripping
claim -/

/-- JSON inter-token whitespace is also `str.strip()` whitespace. -/
lemma jsonWs_pyWs (c : Char) (h : isJsonWs c = true) : isPyWs c = true := by
  simp only [isJsonWs, Bool.or_eq_true, decide_eq_true_eq] at h
  rcases h with ((h | h) | h) | h <;> simp [isPyWs, h]

/-- No whitespace character can start a JSON document. -/
lemma ws_not_startOK (c : Char) (h : isPyWs c = true) : startOK c = false := by
  simp only [isPyWs, Bool.or_eq_true, decide_eq_true_eq] at h
  rcases h with ((((h | h) | h) | h) | h) | h <;> subst h <;> decide

/-- No whitespace character can end a JSON document. -/
lemma ws_not_endOK (c : Char) (h : isPyWs c = true) : endOK c = false := by
  simp only [isPyWs, Bool.or_eq_true, decide_eq_true_eq] at h
  rcases h with ((((h | h) | h) | h) | h) | h <;> subst h <;> decide

/-- A character a JSON document can start with is not whitespace. -/
lemma startOK_not_ws (c : Char) (h : startOK c = true) : isPyWs c = false := by
  cases hw : isPyWs c
  · rfl
  · rw [ws_not_startOK c hw] at h; cases h

/-- A character a JSON document can end with is not whitespace. -/
lemma endOK_not_ws (c : Char) (h : endOK c = true) : isPyWs c = false := by
  cases hw : isPyWs c
  · rfl
  · rw [ws_not_endOK c hw] at h; cases h

/-- `strip` does not touch a list starting with a non-whitespace char. -/
lemma stripLeft_cons_nonws (c : Char) (l : List Char) (h : isPyWs c = false) :
    stripLeft (c :: l) = c :: l := by
  simp [stripLeft, List.dropWhile_cons, h]

/-- `strip` skips a leading whitespace character. -/
lemma stripLeft_cons_ws (c : Char) (l : List Char) (h : isPyWs c = true) :
    stripLeft (c :: l) = stripLeft l := by
  simp [stripLeft, List.dropWhile_cons, h]

/-- `strip` skips any all-whitespace leading run. -/
lemma stripLeft_ws_append (w l : List Char) (h : ∀ c ∈ w, isPyWs c = true) :
    stripLeft (w ++ l) = stripLeft l := by
  induction w with
  | nil => rfl
  | cons c w ih =>
      rw [List.cons_append,
        stripLeft_cons_ws c (w ++ l) (h c (List.mem_cons_self c w))]
      exact ih (fun x hx => h x (List.mem_cons_of_mem c hx))

/-- `strip` does not touch a list ending in a non-whitespace char. -/
lemma stripRight_append_nonws (x : List Char) (c : Char) (h : isPyWs c = false) :
    stripRight (x ++ [c]) = x ++ [c] := by
  simp [stripRight, List.reverse_append, List.dropWhile_cons, h]

/-- `strip` drops any all-whitespace trailing run. -/
lemma stripRight_ws_append (x w : List Char) (h : ∀ c ∈ w, isPyWs c = true) :
    stripRight (x ++ w) = stripRight x := by
  unfold stripRight
  rw [List.reverse_append, List.dropWhile_append]
  have hnil : w.reverse.dropWhile isPyWs = [] :=
    List.dropWhile_eq_nil_iff.mpr (fun y hy => h y (List.mem_reverse.mp hy))
  rw [hnil]
  rfl

/-- A trailing whitespace character does not affect the two-sided strip. -/
lemma strip_append_ws_char (l : List Char) (c : Char) (h : isPyWs c = true) :
    stripRight (stripLeft (l ++ [c])) = stripRight (stripLeft l) := by
  unfold stripLeft
  rw [List.dropWhile_append]
  cases hd : (l.dropWhile isPyWs).isEmpty with
  | false =>
      simp only [hd, Bool.false_eq_true, if_false]
      exact stripRight_ws_append (l.dropWhile isPyWs) [c]
        (fun y hy => by rcases List.mem_singleton.mp hy with rfl; exact h)
  | true =>
      simp only [hd, if_true]
      rw [List.isEmpty_iff.mp hd]
      simp [List.dropWhile_cons, h]

/-- An input splits as its whitespace run followed by `skipJsonWs`. -/
lemma skipJsonWs_split (l : List Char) :
    l = l.takeWhile isJsonWs ++ skipJsonWs l ∧
      ∀ c ∈ l.takeWhile isJsonWs, isJsonWs c = true := by
  constructor
  · exact (List.takeWhile_append_dropWhile (p := isJsonWs) (l := l)).symm
  · exact fun c hc => List.mem_takeWhile_imp hc

/-- A fully-skipped input was all whitespace. -/
lemma skipJsonWs_nil (l : List Char) (h : skipJsonWs l = []) :
    ∀ c ∈ l, isJsonWs c = true :=
  List.dropWhile_eq_nil_iff.mp h

/-- The remainder of `skipJsonWs` is a suffix. -/
lemma skipJsonWs_suffix (l : List Char) : skipJsonWs l <:+ l :=
  ⟨l.takeWhile isJsonWs, List.takeWhile_append_dropWhile isJsonWs l⟩

/-- A successful `expectTail` means the literal was there. -/
lemma expectTail_eq (pat l r : List Char) (h : expectTail pat l = some r) :
    l = pat ++ r := by
  unfold expectTail at h
  split at h
  · rename_i hp
    obtain ⟨t, ht⟩ := List.isPrefixOf_iff_prefix.mp hp
    rw [Option.some_inj] at h
    subst ht
    rw [List.drop_left] at h
    rw [h]
  · cases h

/-- A parsed string literal consumes up to a closing quote. -/
lemma pstring_split : ∀ (acc l : List Char) (s : String) (r : List Char),
    pstring acc l = some (s, r) → ∃ pre, l = pre ++ '"' :: r := by
  intro acc l
  induction acc, l using pstring.induct with
  | case1 acc => intro s r h; simp [pstring] at h
  | case2 acc rest2 =>
      intro s r h
      rw [pstring.eq_def] at h
      simp only [if_pos, Option.some_inj, Prod.mk.injEq] at h
      exact ⟨[], by rw [h.2]; rfl⟩
  | case3 acc hne => intro s r h; simp [pstring] at h
  | case4 acc a b c2 d rest3 ch hhex hne ih =>
      intro s r h
      simp only [pstring, hhex] at h
      obtain ⟨pre, hpre⟩ := ih s r h
      exact ⟨'\\' :: 'u' :: a :: b :: c2 :: d :: pre, by rw [hpre]; simp⟩
  | case5 acc a b c2 d rest3 hhex hne =>
      intro s r h
      simp [pstring, hhex] at h
  | case6 acc rest2 hshape hne =>
      intro s r h
      rcases rest2 with _ | ⟨a, _ | ⟨b, _ | ⟨c2, _ | ⟨d, rest3⟩⟩⟩⟩
      · simp [pstring] at h
      · simp [pstring] at h
      · simp [pstring] at h
      · simp [pstring] at h
      · exact (hshape a b c2 d rest3 rfl).elim
  | case7 acc e rest2 hne ch hesc hq ih =>
      intro s r h
      rw [pstring.eq_def] at h
      simp only [hne, hesc, if_neg, if_false, if_true] at h
      obtain ⟨pre, hpre⟩ := ih s r h
      exact ⟨'\\' :: e :: pre, by rw [hpre]; simp⟩
  | case8 acc e rest2 hne hesc hq =>
      intro s r h
      rw [pstring.eq_def] at h
      simp [hne, hesc] at h
  | case9 acc e rest2 hne1 hne2 ih =>
      intro s r h
      rw [pstring.eq_def] at h
      simp only [hne1, hne2, if_neg, if_false] at h
      obtain ⟨pre, hpre⟩ := ih s r h
      exact ⟨e :: pre, by rw [hpre]; rfl⟩

/-- The remainder of a parsed string literal is a suffix. -/
lemma pstring_suffix (l acc : List Char) (s : String) (r : List Char)
    (h : pstring acc l = some (s, r)) : r <:+ l := by
  obtain ⟨pre, hpre⟩ := pstring_split acc l s r h
  exact ⟨pre ++ ['"'], by rw [hpre]; simp⟩

/-- `digitRun` splits the input and its first component is all digits. -/
lemma digitRun_split (l : List Char) :
    l = (digitRun l).1 ++ (digitRun l).2 ∧
      ∀ c ∈ (digitRun l).1, c.isDigit = true := by
  constructor
  · exact (List.takeWhile_append_dropWhile (p := Char.isDigit) (l := l)).symm
  · exact fun c hc => List.mem_takeWhile_imp hc

/-- A nonempty all-digit list ends in a digit. -/
lemma digits_last (ds : List Char) (h1 : ds ≠ [])
    (h2 : ∀ c ∈ ds, c.isDigit = true) :
    ∃ pre d, d.isDigit = true ∧ ds = pre ++ [d] :=
  ⟨ds.dropLast, ds.getLast h1, h2 _ (List.getLast_mem h1),
    (List.dropLast_append_getLast h1).symm⟩

/-- When the remainder is exactly the digit run's tail, the consumed part
ends in a digit. -/
lemma digitRun_tail_end (R r : List Char) (hne : (digitRun R).1 ≠ [])
    (hr : r = (digitRun R).2) :
    ∃ pre d, d.isDigit = true ∧ R = pre ++ d :: r := by
  obtain ⟨hsplit, hdig⟩ := digitRun_split R
  obtain ⟨pre0, d, hd, hds⟩ := digits_last _ hne hdig
  refine ⟨pre0, d, hd, ?_⟩
  rw [hr]
  conv_lhs => rw [hsplit, hds]
  simp

/-- After `pnumExp`, the remainder is either the whole input (no exponent
consumed) or preceded by a digit of the exponent. -/
lemma pnumExp_cases (m e10 : Int) (l : List Char) (v : Json) (r : List Char)
    (h : pnumExp m e10 l = some (v, r)) :
    r = l ∨ ∃ pre d, d.isDigit = true ∧ l = pre ++ d :: r := by
  unfold pnumExp at h
  split at h
  · simp only [Option.some_inj, Prod.mk.injEq] at h
    exact Or.inl h.2.symm
  · rename_i c r0
    split at h
    · rename_i hce
      split at h
      · -- r0 = []: the digit run after `e` is empty, no parse
        simp [digitRun] at h
      · rename_i c2 r2
        by_cases hc2p : c2 = '+'
        · simp only [if_pos hc2p] at h
          split at h
          · cases h
          · rename_i hne
            simp only [Option.some_inj, Prod.mk.injEq] at h
            have hds : (digitRun r2).1 ≠ [] := by
              intro hh; rw [hh] at hne; exact hne rfl
            obtain ⟨pre0, d, hd, hR⟩ := digitRun_tail_end r2 r hds h.2.symm
            exact Or.inr ⟨c :: c2 :: pre0, d, hd, by rw [hR]; rfl⟩
        · simp only [if_neg hc2p] at h
          by_cases hc2m : c2 = '-'
          · simp only [if_pos hc2m] at h
            split at h
            · cases h
            · rename_i hne
              simp only [Option.some_inj, Prod.mk.injEq] at h
              have hds : (digitRun r2).1 ≠ [] := by
                intro hh; rw [hh] at hne; exact hne rfl
              obtain ⟨pre0, d, hd, hR⟩ := digitRun_tail_end r2 r hds h.2.symm
              exact Or.inr ⟨c :: c2 :: pre0, d, hd, by rw [hR]; rfl⟩
          · simp only [if_neg hc2m] at h
            split at h
            · cases h
            · rename_i hne
              simp only [Option.some_inj, Prod.mk.injEq] at h
              have hds : (digitRun (c2 :: r2)).1 ≠ [] := by
                intro hh; rw [hh] at hne; exact hne rfl
              obtain ⟨pre0, d, hd, hR⟩ :=
                digitRun_tail_end (c2 :: r2) r hds h.2.symm
              exact Or.inr ⟨c :: pre0, d, hd, by rw [hR]; rfl⟩
    · simp only [Option.some_inj, Prod.mk.injEq] at h
      exact Or.inl h.2.symm

/-- After the unsigned number body, the consumed part ends in a digit. -/
lemma pnumBody_end (sign : Int) (X : List Char) (v : Json) (r : List Char)
    (h : pnumBody sign X = some (v, r)) :
    ∃ pre d, d.isDigit = true ∧ X = pre ++ d :: r := by
  unfold pnumBody at h
  split at h
  · cases h
  · rename_i hipne
    have hip : (digitRun X).1 ≠ [] := by
      intro hh; rw [hh] at hipne; exact hipne rfl
    split at h
    · rename_i hip2
      -- no fraction, no further input: the exponent parser got []
      rcases pnumExp_cases _ _ _ _ _ h with hrl | ⟨pre1, d1, hd1, habs⟩
      · exact digitRun_tail_end X r hip (by rw [hrl, hip2])
      · simp at habs
    · rename_i c1 r1 hip2
      split at h
      · rename_i hdot
        split at h
        · cases h
        · rename_i hfpne
          have hfp : (digitRun r1).1 ≠ [] := by
            intro hh; rw [hh] at hfpne; exact hfpne rfl
          obtain ⟨hsplit, _⟩ := digitRun_split X
          rcases pnumExp_cases _ _ _ _ _ h with hrl | ⟨pre1, d1, hd1, hsub⟩
          · obtain ⟨pre0, d, hd, hr1⟩ := digitRun_tail_end r1 r hfp hrl
            refine ⟨(digitRun X).1 ++ c1 :: pre0, d, hd, ?_⟩
            conv_lhs => rw [hsplit, hip2, hr1]
            simp
          · obtain ⟨hsplit1, _⟩ := digitRun_split r1
            refine ⟨(digitRun X).1 ++ c1 :: ((digitRun r1).1 ++ pre1), d1, hd1, ?_⟩
            conv_lhs => rw [hsplit, hip2, hsplit1, hsub]
            simp
      · rcases pnumExp_cases _ _ _ _ _ h with hrl | ⟨pre1, d1, hd1, hsub⟩
        · exact digitRun_tail_end X r hip (by rw [hrl, hip2])
        · obtain ⟨hsplit, _⟩ := digitRun_split X
          refine ⟨(digitRun X).1 ++ pre1, d1, hd1, ?_⟩
          conv_lhs => rw [hsplit, hip2, hsub]
          simp

/-- After a number literal, the consumed part ends in a digit. -/
lemma pnumber_end (l : List Char) (v : Json) (r : List Char)
    (h : pnumber l = some (v, r)) :
    ∃ pre d, d.isDigit = true ∧ l = pre ++ d :: r := by
  unfold pnumber at h
  split at h
  · obtain ⟨pre, d, hd, habs⟩ := pnumBody_end _ _ _ _ h
    simp at habs
  · rename_i c r0
    split at h
    · rename_i hc
      obtain ⟨pre, d, hd, hX⟩ := pnumBody_end _ _ _ _ h
      exact ⟨c :: pre, d, hd, by rw [hX]; rfl⟩
    · obtain ⟨pre, d, hd, hX⟩ := pnumBody_end _ _ _ _ h
      exact ⟨pre, d, hd, hX⟩

/-- The remainder of a number literal is a suffix. -/
lemma pnumber_suffix (l : List Char) (v : Json) (r : List Char)
    (h : pnumber l = some (v, r)) : r <:+ l := by
  obtain ⟨pre, d, hd, hX⟩ := pnumber_end l v r h
  exact ⟨pre ++ [d], by rw [hX]; simp⟩

/-- The value parser rejects empty input. -/
lemma pvalue_nil (fuel : Nat) : pvalue fuel [] = Option.none := by
  cases fuel <;> rfl

/-- A parsed value starts with one of the JSON start characters. -/
lemma pvalue_start (fuel : Nat) (c : Char) (l : List Char) (p : Json × List Char)
    (h : pvalue fuel (c :: l) = some p) : startOK c = true := by
  cases fuel with
  | zero => cases h
  | succ n =>
      rw [pvalue.eq_3] at h
      split_ifs at h with h1 h2 h3 h4 h5 h6 h7
      · simp [startOK, h1]
      · simp [startOK, h2]
      · simp [startOK, h3]
      · simp [startOK, h4]
      · simp [startOK, h5]
      · simp [startOK, h6]
      · rcases h7 with h7 | h7 <;> simp [startOK, h7]

/-- Whatever follows the head of a whitespace skip is a suffix of the
original input. -/
lemma suffix_through_skip (a : List Char) (c1 : Char) (r2 : List Char)
    (heq : skipJsonWs a = c1 :: r2) : r2 <:+ a :=
  List.IsSuffix.trans (List.suffix_cons c1 r2) (heq ▸ skipJsonWs_suffix a)

/-- The three parsers only ever consume from the front: the remainder is a
suffix of the input. -/
lemma parse_suffix : ∀ fuel : Nat,
    (∀ l v r, pvalue fuel l = some (v, r) → r <:+ l) ∧
    (∀ l vs r, pitems fuel l = some (vs, r) → r <:+ l) ∧
    (∀ l ms r, pmembers fuel l = some (ms, r) → r <:+ l) := by
  intro fuel
  induction fuel with
  | zero =>
      refine ⟨?_, ?_, ?_⟩
      · intro l v r h; rw [pvalue.eq_1] at h; cases h
      · intro l vs r h; rw [pitems.eq_1] at h; cases h
      · intro l ms r h; rw [pmembers.eq_1] at h; cases h
  | succ n ih =>
      obtain ⟨ihv, ihi, ihm⟩ := ih
      refine ⟨?_, ?_, ?_⟩
      · intro l v r h
        cases l with
        | nil => rw [pvalue.eq_2] at h; cases h
        | cons c r0 =>
          rw [pvalue.eq_3] at h
          split_ifs at h with h1 h2 h3 h4 h5 h6 h7
          · cases het : expectTail ['u', 'l', 'l'] r0 with
            | none => rw [het] at h; cases h
            | some r2 =>
                rw [het] at h
                simp only [Option.map_some', Option.some_inj, Prod.mk.injEq] at h
                refine ⟨c :: ['u', 'l', 'l'], ?_⟩
                rw [expectTail_eq _ _ _ het, ← h.2]
                rfl
          · cases het : expectTail ['r', 'u', 'e'] r0 with
            | none => rw [het] at h; cases h
            | some r2 =>
                rw [het] at h
                simp only [Option.map_some', Option.some_inj, Prod.mk.injEq] at h
                refine ⟨c :: ['r', 'u', 'e'], ?_⟩
                rw [expectTail_eq _ _ _ het, ← h.2]
                rfl
          · cases het : expectTail ['a', 'l', 's', 'e'] r0 with
            | none => rw [het] at h; cases h
            | some r2 =>
                rw [het] at h
                simp only [Option.map_some', Option.some_inj, Prod.mk.injEq] at h
                refine ⟨c :: ['a', 'l', 's', 'e'], ?_⟩
                rw [expectTail_eq _ _ _ het, ← h.2]
                rfl
          · cases hps : pstring [] r0 with
            | none => rw [hps] at h; cases h
            | some p2 =>
                rw [hps] at h
                obtain ⟨s2, r2⟩ := p2
                simp only [Option.map_some', Option.some_inj, Prod.mk.injEq] at h
                exact (h.2 ▸ pstring_suffix r0 [] s2 r2 hps).trans
                  (List.suffix_cons c r0)
          · split at h
            · cases h
            · rename_i c1 r2 heq
              split_ifs at h with hcb
              · simp only [Option.some_inj, Prod.mk.injEq] at h
                exact (h.2 ▸ suffix_through_skip r0 c1 r2 heq).trans
                  (List.suffix_cons c r0)
              · cases hpi : pitems n (c1 :: r2) with
                | none => rw [hpi] at h; cases h
                | some q =>
                    rw [hpi] at h
                    obtain ⟨vs2, r3⟩ := q
                    simp only [Option.map_some', Option.some_inj, Prod.mk.injEq] at h
                    have hs2 : c1 :: r2 <:+ r0 := heq ▸ skipJsonWs_suffix r0
                    exact (h.2 ▸ ((ihi (c1 :: r2) vs2 r3 hpi).trans hs2)).trans
                      (List.suffix_cons c r0)
          · split at h
            · cases h
            · rename_i c1 r2 heq
              split_ifs at h with hcb
              · simp only [Option.some_inj, Prod.mk.injEq] at h
                exact (h.2 ▸ suffix_through_skip r0 c1 r2 heq).trans
                  (List.suffix_cons c r0)
              · cases hpm : pmembers n (c1 :: r2) with
                | none => rw [hpm] at h; cases h
                | some q =>
                    rw [hpm] at h
                    obtain ⟨ms2, r3⟩ := q
                    simp only [Option.map_some', Option.some_inj, Prod.mk.injEq] at h
                    have hs2 : c1 :: r2 <:+ r0 := heq ▸ skipJsonWs_suffix r0
                    exact (h.2 ▸ ((ihm (c1 :: r2) ms2 r3 hpm).trans hs2)).trans
                      (List.suffix_cons c r0)
          · exact pnumber_suffix _ _ _ h
      · intro l vs r h
        rw [pitems.eq_2] at h
        split at h
        · rename_i v r1 heqv
          split at h
          · cases h
          · rename_i c1 r2 heq
            split_ifs at h with hc hcb
            · split at h
              · rename_i vs2 r3 heq3
                simp only [Option.some_inj, Prod.mk.injEq] at h
                exact h.2 ▸ ((((ihi _ _ _ heq3).trans (skipJsonWs_suffix r2)).trans
                  (suffix_through_skip r1 c1 r2 heq)).trans (ihv _ _ _ heqv))
              · cases h
            · simp only [Option.some_inj, Prod.mk.injEq] at h
              exact h.2 ▸ ((suffix_through_skip r1 c1 r2 heq).trans (ihv _ _ _ heqv))
        · cases h
      · intro l ms r h
        cases l with
        | nil => rw [pmembers.eq_2] at h; cases h
        | cons c r0 =>
          rw [pmembers.eq_3] at h
          split_ifs at h with hc
          · split at h
            · rename_i key r1 heqs
              split at h
              · cases h
              · rename_i c2 r2 heq2
                split_ifs at h with hc2
                · split at h
                  · rename_i v r3 heqv
                    split at h
                    · cases h
                    · rename_i c3 r4 heq4
                      split_ifs at h with hc3 hc3b
                      · split at h
                        · rename_i ms2 r5 heqm
                          simp only [Option.some_inj, Prod.mk.injEq] at h
                          exact (h.2 ▸ ((((((ihm _ _ _ heqm).trans
                            (skipJsonWs_suffix r4)).trans
                            (suffix_through_skip r3 c3 r4 heq4)).trans
                            (ihv _ _ _ heqv)).trans
                            (skipJsonWs_suffix r2)).trans
                            (suffix_through_skip r1 c2 r2 heq2)).trans
                            ((pstring_suffix r0 [] key r1 heqs).trans
                              (List.suffix_cons c r0)))
                        · cases h
                      · simp only [Option.some_inj, Prod.mk.injEq] at h
                        exact (h.2 ▸ ((((suffix_through_skip r3 c3 r4 heq4).trans
                          (ihv _ _ _ heqv)).trans
                          (skipJsonWs_suffix r2)).trans
                          (suffix_through_skip r1 c2 r2 heq2))).trans
                          ((pstring_suffix r0 [] key r1 heqs).trans
                            (List.suffix_cons c r0))
                  · cases h
            · cases h

/-- A parsed array-items run ends at its closing bracket. -/
lemma pitems_end : ∀ (fuel : Nat) (l : List Char) (vs : List Json) (r : List Char),
    pitems fuel l = some (vs, r) → ∃ pre, l = pre ++ ']' :: r := by
  intro fuel
  induction fuel with
  | zero => intro l vs r h; rw [pitems.eq_1] at h; cases h
  | succ n ih =>
      intro l vs r h
      rw [pitems.eq_2] at h
      split at h
      · rename_i v r1 heqv
        split at h
        · cases h
        · rename_i c1 r2 heq
          split_ifs at h with hc hcb
          · split at h
            · rename_i vs2 r3 heq3
              simp only [Option.some_inj, Prod.mk.injEq] at h
              obtain ⟨pre2, hpre2⟩ := ih _ _ _ heq3
              obtain ⟨A, hA⟩ := (parse_suffix n).1 _ _ _ heqv
              obtain ⟨hw, _⟩ := skipJsonWs_split r1
              obtain ⟨hw2, _⟩ := skipJsonWs_split r2
              refine ⟨A ++ r1.takeWhile isJsonWs ++
                c1 :: (r2.takeWhile isJsonWs ++ pre2), ?_⟩
              rw [← hA]
              conv_lhs => rw [hw, heq, hw2, hpre2, h.2]
              simp
            · cases h
          · simp only [Option.some_inj, Prod.mk.injEq] at h
            obtain ⟨A, hA⟩ := (parse_suffix n).1 _ _ _ heqv
            obtain ⟨hw, _⟩ := skipJsonWs_split r1
            refine ⟨A ++ r1.takeWhile isJsonWs, ?_⟩
            rw [← hA]
            conv_lhs => rw [hw, heq, hcb, h.2]
            simp
      · cases h

/-- A parsed object-members run ends at its closing brace. -/
lemma pmembers_end : ∀ (fuel : Nat) (l : List Char) (ms : List (String × Json))
    (r : List Char),
    pmembers fuel l = some (ms, r) → ∃ pre, l = pre ++ '}' :: r := by
  intro fuel
  induction fuel with
  | zero => intro l ms r h; rw [pmembers.eq_1] at h; cases h
  | succ n ih =>
      intro l ms r h
      cases l with
      | nil => rw [pmembers.eq_2] at h; cases h
      | cons c r0 =>
        rw [pmembers.eq_3] at h
        split_ifs at h with hc
        · split at h
          · rename_i key r1 heqs
            split at h
            · cases h
            · rename_i c2 r2 heq2
              split_ifs at h with hc2
              · split at h
                · rename_i v r3 heqv
                  split at h
                  · cases h
                  · rename_i c3 r4 heq4
                    split_ifs at h with hc3 hc3b
                    · split at h
                      · rename_i ms2 r5 heqm
                        simp only [Option.some_inj, Prod.mk.injEq] at h
                        obtain ⟨pre2, hpre2⟩ := ih _ _ _ heqm
                        obtain ⟨B, hB⟩ := pstring_split [] r0 key r1 heqs
                        obtain ⟨A, hA⟩ := (parse_suffix n).1 _ _ _ heqv
                        obtain ⟨hw2, _⟩ := skipJsonWs_split r2
                        obtain ⟨hw3, _⟩ := skipJsonWs_split r3
                        obtain ⟨hw4, _⟩ := skipJsonWs_split r4
                        refine ⟨c :: (B ++ '"' :: (r1.takeWhile isJsonWs ++
                          c2 :: (r2.takeWhile isJsonWs ++ (A ++
                          (r3.takeWhile isJsonWs ++ c3 :: (r4.takeWhile isJsonWs ++
                          pre2)))))), ?_⟩
                        conv_lhs => rw [hB]
                        conv_lhs => rw [show r1 = r1.takeWhile isJsonWs ++
                          skipJsonWs r1 from (skipJsonWs_split r1).1, heq2, hw2]
                        conv_lhs => rw [show skipJsonWs r2 = A ++ r3 from hA.symm]
                        conv_lhs => rw [hw3, heq4, hw4, hpre2, h.2]
                        simp
                      · cases h
                    · simp only [Option.some_inj, Prod.mk.injEq] at h
                      obtain ⟨B, hB⟩ := pstring_split [] r0 key r1 heqs
                      obtain ⟨A, hA⟩ := (parse_suffix n).1 _ _ _ heqv
                      obtain ⟨hw2, _⟩ := skipJsonWs_split r2
                      obtain ⟨hw3, _⟩ := skipJsonWs_split r3
                      refine ⟨c :: (B ++ '"' :: (r1.takeWhile isJsonWs ++
                        c2 :: (r2.takeWhile isJsonWs ++ (A ++
                        r3.takeWhile isJsonWs)))), ?_⟩
                      conv_lhs => rw [hB]
                      conv_lhs => rw [show r1 = r1.takeWhile isJsonWs ++
                        skipJsonWs r1 from (skipJsonWs_split r1).1, heq2, hw2]
                      conv_lhs => rw [show skipJsonWs r2 = A ++ r3 from hA.symm]
                      conv_lhs => rw [hw3, heq4, hc3b, h.2]
                      simp
                · cases h
          · cases h

/-- A parsed value ends with one of the JSON end characters. -/
lemma pvalue_end (fuel : Nat) (l : List Char) (v : Json) (r : List Char)
    (h : pvalue fuel l = some (v, r)) :
    ∃ pre c2, endOK c2 = true ∧ l = pre ++ c2 :: r := by
  cases fuel with
  | zero => rw [pvalue.eq_1] at h; cases h
  | succ n =>
      cases l with
      | nil => rw [pvalue.eq_2] at h; cases h
      | cons c r0 =>
        rw [pvalue.eq_3] at h
        split_ifs at h with h1 h2 h3 h4 h5 h6 h7
        · cases het : expectTail ['u', 'l', 'l'] r0 with
          | none => rw [het] at h; cases h
          | some r2 =>
              rw [het] at h
              simp only [Option.map_some', Option.some_inj, Prod.mk.injEq] at h
              refine ⟨[c, 'u', 'l'], 'l', by decide, ?_⟩
              rw [expectTail_eq _ _ _ het, ← h.2]
              rfl
        · cases het : expectTail ['r', 'u', 'e'] r0 with
          | none => rw [het] at h; cases h
          | some r2 =>
              rw [het] at h
              simp only [Option.map_some', Option.some_inj, Prod.mk.injEq] at h
              refine ⟨[c, 'r', 'u'], 'e', by decide, ?_⟩
              rw [expectTail_eq _ _ _ het, ← h.2]
              rfl
        · cases het : expectTail ['a', 'l', 's', 'e'] r0 with
          | none => rw [het] at h; cases h
          | some r2 =>
              rw [het] at h
              simp only [Option.map_some', Option.some_inj, Prod.mk.injEq] at h
              refine ⟨[c, 'a', 'l', 's'], 'e', by decide, ?_⟩
              rw [expectTail_eq _ _ _ het, ← h.2]
              rfl
        · cases hps : pstring [] r0 with
          | none => rw [hps] at h; cases h
          | some p2 =>
              rw [hps] at h
              obtain ⟨s2, r2⟩ := p2
              simp only [Option.map_some', Option.some_inj, Prod.mk.injEq] at h
              obtain ⟨B, hB⟩ := pstring_split [] r0 s2 r2 hps
              refine ⟨c :: B, '"', by decide, ?_⟩
              conv_lhs => rw [hB, h.2]
              rfl
        · split at h
          · cases h
          · rename_i c1 r2 heq
            split_ifs at h with hcb
            · simp only [Option.some_inj, Prod.mk.injEq] at h
              obtain ⟨hw, _⟩ := skipJsonWs_split r0
              refine ⟨c :: r0.takeWhile isJsonWs, ']', by decide, ?_⟩
              conv_lhs => rw [hw, heq, hcb, h.2]
              rfl
            · cases hpi : pitems n (c1 :: r2) with
              | none => rw [hpi] at h; cases h
              | some q =>
                  rw [hpi] at h
                  obtain ⟨vs2, r3⟩ := q
                  simp only [Option.map_some', Option.some_inj, Prod.mk.injEq] at h
                  obtain ⟨pre2, hpre2⟩ := pitems_end n _ _ _ hpi
                  obtain ⟨hw, _⟩ := skipJsonWs_split r0
                  refine ⟨c :: (r0.takeWhile isJsonWs ++ pre2), ']', by decide, ?_⟩
                  conv_lhs => rw [hw, heq, hpre2, h.2]
                  simp
        · split at h
          · cases h
          · rename_i c1 r2 heq
            split_ifs at h with hcb
            · simp only [Option.some_inj, Prod.mk.injEq] at h
              obtain ⟨hw, _⟩ := skipJsonWs_split r0
              refine ⟨c :: r0.takeWhile isJsonWs, '}', by decide, ?_⟩
              conv_lhs => rw [hw, heq, hcb, h.2]
              rfl
            · cases hpm : pmembers n (c1 :: r2) with
              | none => rw [hpm] at h; cases h
              | some q =>
                  rw [hpm] at h
                  obtain ⟨ms2, r3⟩ := q
                  simp only [Option.map_some', Option.some_inj, Prod.mk.injEq] at h
                  obtain ⟨pre2, hpre2⟩ := pmembers_end n _ _ _ hpm
                  obtain ⟨hw, _⟩ := skipJsonWs_split r0
                  refine ⟨c :: (r0.takeWhile isJsonWs ++ pre2), '}', by decide, ?_⟩
                  conv_lhs => rw [hw, heq, hpre2, h.2]
                  simp
        · obtain ⟨pre, d, hd, hX⟩ := pnumber_end _ _ _ h
          exact ⟨pre, d, by simp [endOK, hd], hX⟩

/-- A text accepted by `json.loads` has, after `strip`, a JSON start
character in front and a JSON end character at the back: it neither starts
with a markdown fence nor ends with one, and stripping it again changes
nothing. -/
lemma json_loads_clean (l : List Char) (v : Json)
    (h : json_loads_list l = some v) :
    fenceOpen.isPrefixOf (pyStripL l) = false ∧
    fenceClose.reverse.isPrefixOf (pyStripL l).reverse = false ∧
    pyStripL (pyStripL l) = pyStripL l := by
  unfold json_loads_list at h
  split at h
  · rename_i v0 r heqp
    split_ifs at h with hr
    · cases hsk : skipJsonWs l with
      | nil => rw [hsk, pvalue_nil] at heqp; cases heqp
      | cons c rest =>
        rw [hsk] at heqp
        have hstart := pvalue_start _ _ _ _ heqp
        obtain ⟨pre, c2, hend, hsplit⟩ := pvalue_end _ _ _ _ heqp
        have hrws : ∀ x ∈ r, isPyWs x = true :=
          fun x hx => jsonWs_pyWs x (skipJsonWs_nil r hr x hx)
        obtain ⟨hlsplit, hw1⟩ := skipJsonWs_split l
        have hsl : stripLeft l = c :: rest := by
          conv_lhs => rw [hlsplit, hsk]
          rw [stripLeft_ws_append _ _ (fun x hx => jsonWs_pyWs x (hw1 x hx))]
          exact stripLeft_cons_nonws c rest (startOK_not_ws c hstart)
        have hps : pyStripL l = pre ++ [c2] := by
          unfold pyStripL
          rw [hsl, hsplit]
          rw [show pre ++ c2 :: r = (pre ++ [c2]) ++ r by simp]
          rw [stripRight_ws_append _ _ hrws]
          exact stripRight_append_nonws _ _ (endOK_not_ws c2 hend)
        have hhead : (pre ++ [c2]).head? = some c := by
          have h1 : (pre ++ c2 :: r).head? = some c := by rw [← hsplit]; rfl
          cases pre with
          | nil =>
              simp only [List.nil_append, List.head?_cons,
                Option.some_inj] at h1 ⊢
              exact h1
          | cons p0 pre' =>
              simp only [List.cons_append, List.head?_cons] at h1 ⊢
              exact h1
        refine ⟨?_, ?_, ?_⟩
        · cases hpf : fenceOpen.isPrefixOf (pyStripL l) with
          | false => rfl
          | true =>
              exfalso
              obtain ⟨t, ht⟩ := List.isPrefixOf_iff_prefix.mp hpf
              rw [hps] at ht
              rw [← ht] at hhead
              rw [show fenceOpen = '`' :: ['`', '`', 'j', 's', 'o', 'n'] from rfl]
                at hhead
              simp only [List.cons_append, List.head?_cons,
                Option.some_inj] at hhead
              rw [← hhead] at hstart
              exact absurd hstart (by decide)
        · cases hpf : fenceClose.reverse.isPrefixOf (pyStripL l).reverse with
          | false => rfl
          | true =>
              exfalso
              obtain ⟨t, ht⟩ := List.isPrefixOf_iff_prefix.mp hpf
              rw [hps, List.reverse_append] at ht
              rw [show ([c2] : List Char).reverse = [c2] from rfl] at ht
              rw [show fenceClose.reverse = '`' :: ['`', '`'] from rfl] at ht
              have : c2 = '`' := by
                have := congrArg List.head? ht
                simp only [List.cons_append, List.head?_cons,
                  Option.some_inj] at this
                exact this.symm
              rw [this] at hend
              exact absurd hend (by decide)
        · rw [hps]
          unfold pyStripL
          have hcnw : isPyWs c = false := startOK_not_ws c hstart
          have hc2nw : isPyWs c2 = false := endOK_not_ws c2 hend
          cases pre with
          | nil =>
              rw [show stripLeft ([] ++ [c2]) = [c2] from
                stripLeft_cons_nonws c2 [] hc2nw]
              exact stripRight_append_nonws [] c2 hc2nw
          | cons p0 pre' =>
              have hp0 : p0 = c := by
                simp only [List.cons_append, List.head?_cons,
                  Option.some_inj] at hhead
                exact hhead
              have h1 : stripLeft ((p0 :: pre') ++ [c2]) = (p0 :: pre') ++ [c2] :=
                stripLeft_cons_nonws p0 (pre' ++ [c2]) (by rw [hp0]; exact hcnw)
              rw [h1]
              exact stripRight_append_nonws (p0 :: pre') c2 hc2nw
  · cases h

/-- Post-processing a fence-wrapped text strips exactly the fences and
whitespace: the result is the stripped body. -/
lemma clean_output_list_wrap (jl : List Char) :
    clean_output_list (fenceOpen ++ '\n' :: jl ++ '\n' :: fenceClose) =
      stripRight (stripLeft jl) := by
  have hnb : isPyWs '`' = false := by decide
  have hstrip : pyStripL (fenceOpen ++ '\n' :: jl ++ '\n' :: fenceClose) =
      fenceOpen ++ '\n' :: jl ++ '\n' :: fenceClose := by
    unfold pyStripL
    have h1 : stripLeft (fenceOpen ++ '\n' :: jl ++ '\n' :: fenceClose) =
        fenceOpen ++ '\n' :: jl ++ '\n' :: fenceClose := by
      rw [show fenceOpen ++ '\n' :: jl ++ '\n' :: fenceClose =
        '`' :: (['`', '`', 'j', 's', 'o', 'n'] ++ '\n' :: jl ++ '\n' :: fenceClose)
        from rfl]
      exact stripLeft_cons_nonws _ _ hnb
    rw [h1]
    have hfc : fenceClose = ['`', '`', '`'] := rfl
    rw [show fenceOpen ++ '\n' :: jl ++ '\n' :: fenceClose =
      (fenceOpen ++ '\n' :: jl ++ '\n' :: ['`', '`']) ++ ['`'] by
        rw [hfc]; simp]
    rw [stripRight_append_nonws _ _ hnb]
  have hpf : fenceOpen.isPrefixOf
      (fenceOpen ++ ('\n' :: jl ++ '\n' :: fenceClose)) = true :=
    List.isPrefixOf_iff_prefix.mpr (List.prefix_append _ _)
  have hform : '\n' :: jl ++ '\n' :: fenceClose =
      ('\n' :: jl ++ ['\n']) ++ fenceClose := by simp
  have hsuf : fenceClose.reverse.isPrefixOf
      ('\n' :: jl ++ '\n' :: fenceClose).reverse = true := by
    rw [hform, List.reverse_append]
    exact List.isPrefixOf_iff_prefix.mpr (List.prefix_append _ _)
  have htake : ('\n' :: jl ++ '\n' :: fenceClose).take
      (('\n' :: jl ++ '\n' :: fenceClose).length - fenceClose.length) =
      '\n' :: jl ++ ['\n'] := by
    rw [hform, List.length_append, Nat.add_sub_cancel]
    exact List.take_left _ _
  simp only [clean_output_list]
  rw [hstrip, List.append_assoc, if_pos hpf,
    List.drop_left fenceOpen ('\n' :: jl ++ '\n' :: fenceClose),
    if_pos hsuf, htake]
  unfold pyStripL
  rw [show ('\n' :: jl ++ ['\n'] : List Char) = '\n' :: (jl ++ ['\n']) from rfl]
  rw [stripLeft_cons_ws _ _ (by decide)]
  exact strip_append_ws_char jl '\n' (by decide)

/-- On input that is itself valid JSON, the fence-stripping pass is just
Python `strip`: neither fence test fires and stripping is idempotent. -/
lemma clean_output_list_unfenced (l : List Char) (v : Json)
    (h : json_loads_list l = some v) :
    clean_output_list l = pyStripL l := by
  obtain ⟨h1, h2, h3⟩ := json_loads_clean l v h
  simp only [clean_output_list]
  have hno : ¬(fenceOpen.isPrefixOf (pyStripL l) = true) := by rw [h1]; simp
  have hnc : ¬(fenceClose.reverse.isPrefixOf (pyStripL l).reverse = true) := by
    rw [h2]; simp
  rw [if_neg hno, if_neg hnc]
  exact h3

/-- C8: for every JSON text j that `json.loads` accepts, the parser
service post-processing maps the fenced generation output
"```json\n" + j + "\n```" to exactly the same cleaned string as j
itself, so the two inputs parse identically. -/
theorem C8_fence_wrap_parses_identically (j : String) (v : Json)
    (h : json_loads j = some v) :
    clean_output ("```json\n" ++ j ++ "\n```") = clean_output j ∧
    json_loads (clean_output ("```json\n" ++ j ++ "\n```")) =
      json_loads (clean_output j) := by
  have hjl : json_loads_list j.toList = some v := h
  have e1 : ("```json\n" ++ j ++ "\n```").toList =
      fenceOpen ++ '\n' :: j.toList ++ '\n' :: fenceClose := by
    show (("```json\n" ++ j) ++ "\n```").data = _
    rw [String.data_append, String.data_append]
    show (fenceOpen ++ ['\n']) ++ j.data ++ ('\n' :: fenceClose) = _
    simp
  have heq : clean_output ("```json\n" ++ j ++ "\n```") = clean_output j := by
    unfold clean_output
    rw [e1, clean_output_list_wrap, clean_output_list_unfenced j.toList v hjl]
    rfl
  exact ⟨heq, congrArg json_loads heq⟩

/-- Witness for C8 at the spec scenario j = {"medications": []}. -/
theorem C8_fence_wrap_witness :
    json_loads "\x7b\"medications\": []\x7d" =
      some (Json.obj [("medications", Json.arr [])]) ∧
    clean_output ("```json\n" ++ "\x7b\"medications\": []\x7d" ++ "\n```") =
      clean_output "\x7b\"medications\": []\x7d" :=
  ⟨rfl,
    (C8_fence_wrap_parses_identically "\x7b\"medications\": []\x7d"
      (Json.obj [("medications", Json.arr [])]) rfl).1⟩

end Aarogya
